import Mathlib

/-!
Shallow embedding of the ride-dispatch backend (community_outreach repository)
and verification of its specification claims.

The embedding translates the Python source under `backend/` into Lean:

* `backend/common/utils/geo.py` and `backend/realtime/geo.py`
  (geohash encoding, neighbor enumeration, covering tiles, haversine);
* `backend/services/matching/offer_builder.py` and `offer_dispatch.py`
  (offer queue construction and daisy-chain dispatch/expiry);
* `backend/services/ride_management/ride_lifecycle.py`
  (create / cancel / accept / complete operations);
* `backend/drivers/services.py` (`update_driver_status`);
* `backend/rides/tasks.py` (`expire_ride_offer_task`).

Modelling conventions:

* Python floats (latitudes, longitudes) are embedded as `ℚ` where the code
  only compares them against dyadic midpoints (geohash encoding), and as `ℝ`
  where transcendental functions occur (haversine distance, `math.cos`).
* Django rows become Lean structures; the database becomes lists of rows
  plus fresh-id counters.  Row updates (`save(update_fields=...)`) become
  pointwise list maps keyed by id.
* `timezone.now()` becomes the `now` field of the database state.
* Channel-layer pushes (`group_send` to `user_<id>`, `driver_<id>`,
  `ride_<id>` groups) become an append-only event log; `get_channel_layer()`
  is modelled as always available.
* Raised service exceptions become `Except` errors.
-/

/-! ## Basic identifiers and enumerations -/

abbrev UserId := Nat
abbrev RideId := Nat
abbrev OfferId := Nat
abbrev Time := Nat

/-- `DriverProfile.STATUS_CHOICES` from `backend/rides/models.py`. -/
inductive DStatus
  | available
  | busy
  | offline
deriving DecidableEq, Repr

/-- `RideRequest.STATUS_CHOICES` from `backend/rides/models.py`. -/
inductive RStatus
  | pending
  | accepted
  | no_drivers
  | in_progress
  | completed
  | cancelled_user
  | cancelled_driver
deriving DecidableEq, Repr

/-- Offer statuses used by the matching services (`pending`, `accepted`,
`rejected`, `expired`); the `RideOffer` model class is absent from the
provided sources (it is imported from `rides.models` by the services and
tests), so the enumeration follows spec §3. -/
inductive OStatus
  | pending
  | accepted
  | rejected
  | expired
deriving DecidableEq, Repr

/-! ## Rows of the durable store -/

/-- `User` (`backend/rides/models.py`): only the fields the verified
operations touch. -/
structure URow where
  id : UserId
  completed_rides : Int
deriving DecidableEq, Repr

/-- `DriverProfile` (`backend/rides/models.py`): `current_latitude` /
`current_longitude` are nullable decimal fields, embedded as
`Option (ℚ × ℚ)` (both are always written together by the code). -/
structure PRow where
  user : UserId
  status : DStatus
  loc : Option (ℚ × ℚ)
deriving DecidableEq, Repr

/-- `RideRequest` (`backend/rides/models.py`). -/
structure RRow where
  id : RideId
  passenger : UserId
  driver : Option UserId
  pickup : ℚ × ℚ
  pickup_address : String
  dropoff_address : String
  number_of_passengers : Int
  broadcast_radius : Int
  status : RStatus
  requested_at : Time
  accepted_at : Option Time
  completed_at : Option Time
  cancelled_at : Option Time
  cancellation_reason : Option String
deriving DecidableEq, Repr

/-- Modelled from the spec: the `RideOffer` model class is missing from the
provided sources (only its users — services, tasks, tests — are present), so
its fields follow spec §3: `ride` (FK), `driver` (FK), `order` (0 = closest),
`status`, nullable `sent_at`, nullable `responded_at`; `sent_at` and
`responded_at` default to NULL on creation. -/
structure ORow where
  id : OfferId
  ride : RideId
  driver : UserId
  order : Nat
  status : OStatus
  sent_at : Option Time
  responded_at : Option Time
deriving DecidableEq, Repr

/-- One channel-layer push (`async_to_sync(channel_layer.group_send)(...)`).
`userGroup p t r` is a send to group `user_<p>`, `driverGroup d t r` to
`driver_<d>`, `rideGroup r t` to `ride_<r>`; `t` is the payload `type`. -/
inductive Event
  | userGroup (passenger : UserId) (etype : String) (ride : RideId)
  | driverGroup (driver : UserId) (etype : String) (ride : RideId)
  | rideGroup (ride : RideId) (etype : String)
deriving DecidableEq, Repr

/-- The durable store plus the event log and the clock. -/
structure DB where
  users : List URow
  profiles : List PRow
  rides : List RRow
  offers : List ORow
  events : List Event
  now : Time
  nextRideId : RideId
  nextOfferId : OfferId
deriving DecidableEq, Repr

/-- Service-layer exceptions (`backend/services/ride_management/exceptions.py`);
`internalError` stands for an unhandled Django exception (e.g. a missing
related `DriverProfile` row). -/
inductive Err
  | rideNotFound
  | rideNotAvailable
  | offerExpired
  | offerNotFound
  | driverNotAvailable
  | activeRideExists
  | internalError
deriving DecidableEq, Repr

/-! ## Store lookups and row updates -/

/-- `RideRequest.objects.get(id=ride_id)`-style lookup. -/
def findRide (db : DB) (rid : RideId) : Option RRow :=
  db.rides.find? (fun r => r.id = rid)

/-- `driver.driver_profile` one-to-one lookup. -/
def findProfile (db : DB) (uid : UserId) : Option PRow :=
  db.profiles.find? (fun p => p.user = uid)

/-- `RideOffer.objects.get(id=offer_id)` lookup. -/
def findOffer (db : DB) (oid : OfferId) : Option ORow :=
  db.offers.find? (fun o => o.id = oid)

/-- `User.objects.get(id=...)` lookup. -/
def findUser (db : DB) (uid : UserId) : Option URow :=
  db.users.find? (fun u => u.id = uid)

/-- Saving selected fields of the ride row with the given id. -/
def updateRide (db : DB) (rid : RideId) (f : RRow → RRow) : DB :=
  { db with rides := db.rides.map (fun r => if r.id = rid then f r else r) }

/-- Saving selected fields of the profile row of the given user. -/
def updateProfile (db : DB) (uid : UserId) (f : PRow → PRow) : DB :=
  { db with profiles := db.profiles.map (fun p => if p.user = uid then f p else p) }

/-- Saving selected fields of the offer row with the given id. -/
def updateOffer (db : DB) (oid : OfferId) (f : ORow → ORow) : DB :=
  { db with offers := db.offers.map (fun o => if o.id = oid then f o else o) }

/-- Saving selected fields of the user row with the given id. -/
def updateUser (db : DB) (uid : UserId) (f : URow → URow) : DB :=
  { db with users := db.users.map (fun u => if u.id = uid then f u else u) }

/-- Appending one channel-layer push to the log. -/
def pushEvent (db : DB) (e : Event) : DB :=
  { db with events := db.events ++ [e] }

/-- `ride.offers` related manager: the offers of one ride. -/
def rideOffers (db : DB) (rid : RideId) : List ORow :=
  db.offers.filter (fun o => o.ride = rid)

/-! ## Geohash kernel over `ℚ`

`encode_geohash` from `backend/common/utils/geo.py` (the copy in
`backend/realtime/geo.py` is textually identical).  The Python float
arithmetic on the interval bounds is exact dyadic arithmetic, embedded
as `ℚ`.  The while loop runs one bit decision per iteration and stops as
soon as `precision` characters have accumulated; each group of five
iterations emits one character, so the loop makes exactly
`5 * precision` iterations, which the fuel argument mirrors. -/

/-- `_BASE32 = "0123456789bcdefghjkmnpqrstuvwxyz"`. -/
def geohashBase32 : String := "0123456789bcdefghjkmnpqrstuvwxyz"

/-- `bits = [16, 8, 4, 2, 1]`. -/
def geohashBits : List Nat := [16, 8, 4, 2, 1]

/-- Loop state of `encode_geohash`: the shrinking latitude/longitude
intervals, the bit position inside the current character, the character
accumulator `ch`, the interleaving flag `is_lon` and the emitted text. -/
structure GHState where
  latLo : ℚ
  latHi : ℚ
  lonLo : ℚ
  lonHi : ℚ
  bit : Nat
  ch : Nat
  isLon : Bool
  acc : List Char
deriving Repr

/-- One iteration of the `while len(geohash) < precision` loop body. -/
def ghStep (lat lon : ℚ) (s : GHState) : GHState :=
  let s1 :=
    if s.isLon then
      let mid := (s.lonLo + s.lonHi) / 2
      if lon ≥ mid then
        { s with ch := s.ch ||| geohashBits.getD s.bit 0, lonLo := mid }
      else
        { s with lonHi := mid }
    else
      let mid := (s.latLo + s.latHi) / 2
      if lat ≥ mid then
        { s with ch := s.ch ||| geohashBits.getD s.bit 0, latLo := mid }
      else
        { s with latHi := mid }
  let s2 := { s1 with isLon := !s1.isLon }
  if s2.bit < 4 then
    { s2 with bit := s2.bit + 1 }
  else
    { s2 with acc := s2.acc ++ [geohashBase32.toList.getD s2.ch 'x'],
              bit := 0, ch := 0 }

/-- The loop itself, with fuel bounding the number of iterations; the
loop guard `len(geohash) < precision` is checked before every step
exactly as in the source. -/
def ghLoop (lat lon : ℚ) (precision : Nat) : Nat → GHState → GHState
  | 0, s => s
  | fuel + 1, s =>
      if s.acc.length < precision then
        ghLoop lat lon precision fuel (ghStep lat lon s)
      else
        s

/-- Initial loop state: `lat_range = (-90, 90)`, `lon_range = (-180, 180)`,
`bit = 0`, `ch = 0`, `is_lon = True`, empty output. -/
def ghInit : GHState :=
  { latLo := -90, latHi := 90, lonLo := -180, lonHi := 180,
    bit := 0, ch := 0, isLon := true, acc := [] }

/-- `encode_geohash(lat, lon, precision)` from
`backend/common/utils/geo.py`. -/
def encode_geohash (lat lon : ℚ) (precision : Nat) : String :=
  String.mk (ghLoop lat lon precision (5 * precision) ghInit).acc

/-- `get_geohash_neighbors` from `backend/realtime/geo.py`: a Python set
seeded with the tile and, when the tile has more than one character, its
truncation by one character (`geohash[:-1]`); modelled as the list of its
distinct inserted elements. -/
def get_geohash_neighbors (geohash : String) : List String :=
  if geohash.length > 1 then [geohash, geohash.dropRight 1] else [geohash]

/-! ## Haversine distance over `ℝ`

`calculate_distance` from `backend/common/utils/geo.py` (re-exported through
`common.utils`): the haversine formula with Earth radius 6 371 000 m.
Transcendental float operations are embedded as their exact `ℝ`
counterparts, so the definition is noncomputable. -/

/-- `calculate_distance(lat1, lon1, lat2, lon2)`. -/
noncomputable def calculate_distance (lat1 lon1 lat2 lon2 : ℝ) : ℝ :=
  let rlat1 := lat1 * Real.pi / 180
  let rlon1 := lon1 * Real.pi / 180
  let rlat2 := lat2 * Real.pi / 180
  let rlon2 := lon2 * Real.pi / 180
  let dlat := rlat2 - rlat1
  let dlon := rlon2 - rlon1
  let a := Real.sin (dlat / 2) ^ 2 +
    Real.cos rlat1 * Real.cos rlat2 * Real.sin (dlon / 2) ^ 2
  let c := 2 * Real.arcsin (Real.sqrt a)
  c * 6371000

/-! ## Offer queue construction (`backend/services/matching/offer_builder.py`) -/

/-- Insert into a `le`-sorted list, after any element `y` with `le y x`. -/
def insertSorted (le : α → α → Bool) (x : α) : List α → List α
  | [] => [x]
  | y :: ys => if le y x then y :: insertSorted le x ys else x :: y :: ys

/-- Insertion sort with a boolean comparison, modelling
`candidates.sort(key=lambda item: item[1])`. -/
def sortByLe (le : α → α → Bool) : List α → List α
  | [] => []
  | x :: xs => insertSorted le x (sortByLe le xs)

open Classical in
/-- Comparison on `(profile, distance)` pairs by distance. -/
noncomputable def candLe : (PRow × ℝ) → (PRow × ℝ) → Bool :=
  fun a b => decide (a.2 ≤ b.2)

open Classical in
/-- The candidate enumeration of `build_offers_for_ride`: available drivers
with a stored live location, annotated with the haversine distance from the
ride pickup, kept only when the distance is at most `broadcast_radius`. -/
noncomputable def rideCandidates (db : DB) (pickup : ℚ × ℚ) (radius : Int) :
    List (PRow × ℝ) :=
  (db.profiles.filter (fun p => p.status == DStatus.available && p.loc.isSome)).filterMap
    (fun p =>
      match p.loc with
      | none => none
      | some l =>
        let distance := calculate_distance (pickup.1 : ℝ) (pickup.2 : ℝ) (l.1 : ℝ) (l.2 : ℝ)
        if distance ≤ (radius : ℝ) then some (p, distance) else none)

/-- `build_offers_for_ride(ride)`: sorts the candidates closest-first,
deletes the prior offers of the ride (`ride.offers.all().delete()`) and
inserts the new pending queue with `order = 0..N-1`; returns the updated
store and the created offers. -/
noncomputable def build_offers_for_ride (db : DB) (ride : RRow) : DB × List ORow :=
  let cands := sortByLe candLe (rideCandidates db ride.pickup ride.broadcast_radius)
  let kept := db.offers.filter (fun o => o.ride ≠ ride.id)
  let newOffers := cands.enum.map (fun ic =>
    { id := db.nextOfferId + ic.1, ride := ride.id, driver := ic.2.1.user,
      order := ic.1, status := OStatus.pending,
      sent_at := none, responded_at := none : ORow })
  ({ db with offers := kept ++ newOffers,
             nextOfferId := db.nextOfferId + newOffers.length }, newOffers)

/-! ## Offer dispatch and expiry (`backend/services/matching/offer_dispatch.py`) -/

/-- `order_by('order').first()`: the row with the least `order` value
(earlier row wins ties). -/
def firstByOrder : List ORow → Option ORow
  | [] => none
  | o :: os =>
      match firstByOrder os with
      | none => some o
      | some b => if o.order ≤ b.order then some o else some b

/-- `dispatch_next_offer(ride)`: select the unsent pending offer with the
least `order`; if none, return `false`; otherwise stamp `sent_at`, push
`ride_offer` to the driver's group and return `true` (the Celery expiry
scheduling has no effect on the store). -/
def dispatch_next_offer (db : DB) (rid : RideId) : DB × Bool :=
  let pendingUnsent := (rideOffers db rid).filter
    (fun o => o.status == OStatus.pending && o.sent_at == none)
  match firstByOrder pendingUnsent with
  | none => (db, false)
  | some offer =>
      let db1 := updateOffer db offer.id (fun o => { o with sent_at := some db.now })
      (pushEvent db1 (Event.driverGroup offer.driver "ride_offer" rid), true)

/-- `expire_offer_and_dispatch(offer)`: no-op unless the offer is pending;
otherwise mark it expired with `responded_at`, push `ride_expired` to the
driver, dispatch the next offer, and when dispatch failed and no pending
offers remain set the ride's status to `no_drivers` and push a
`ride_expired` payload to the passenger's `user_<id>` group. -/
def expire_offer_and_dispatch (db : DB) (offer : ORow) : DB × Bool :=
  if offer.status ≠ OStatus.pending then (db, false)
  else
    let db1 := updateOffer db offer.id
      (fun o => { o with status := OStatus.expired, responded_at := some db.now })
    let db2 := pushEvent db1 (Event.driverGroup offer.driver "ride_expired" offer.ride)
    let res := dispatch_next_offer db2 offer.ride
    let hasPending := (rideOffers res.1 offer.ride).any (fun o => o.status == OStatus.pending)
    if !res.2 && !hasPending then
      let db4 := updateRide res.1 offer.ride (fun r => { r with status := RStatus.no_drivers })
      let db5 :=
        match findRide db4 offer.ride with
        | some r => pushEvent db4 (Event.userGroup r.passenger "ride_expired" offer.ride)
        | none => db4
      (db5, res.2)
    else (res.1, res.2)

/-- `expire_ride_offer_task(offer_id)` from `backend/rides/tasks.py`: load
the offer (a missing row is swallowed), and only expire when it is still
pending and unresponded. -/
def expire_ride_offer_task (db : DB) (oid : OfferId) : DB :=
  match findOffer db oid with
  | none => db
  | some offer =>
      if offer.status = OStatus.pending ∧ offer.responded_at = none then
        (expire_offer_and_dispatch db offer).1
      else db

/-! ## Ride lifecycle (`backend/services/ride_management/ride_lifecycle.py`) -/

/-- `check_active_ride(user)`: the user's ride in a status among
`pending`, `accepted`, `in_progress`, if any. -/
def check_active_ride (db : DB) (user : UserId) : Option RRow :=
  (db.rides.filter (fun r => r.passenger == user &&
    (r.status == RStatus.pending || r.status == RStatus.accepted ||
     r.status == RStatus.in_progress))).head?

/-- `create_ride_request(...)`: reject when an active ride exists, insert a
`pending` ride, build the offer queue; dispatch the first offer when the
queue is non-empty, else push `no_drivers_available` to the passenger.
Returns the new ride id and the candidate count. -/
noncomputable def create_ride_request (db : DB) (passenger : UserId)
    (pickup_latitude pickup_longitude : ℚ)
    (pickup_address dropoff_address : String)
    (number_of_passengers : Int) (broadcast_radius : Int) :
    Except Err (DB × RideId × Nat) :=
  match check_active_ride db passenger with
  | some _ => .error .activeRideExists
  | none =>
      let ride : RRow :=
        { id := db.nextRideId, passenger := passenger, driver := none,
          pickup := (pickup_latitude, pickup_longitude),
          pickup_address := pickup_address, dropoff_address := dropoff_address,
          number_of_passengers := number_of_passengers,
          broadcast_radius := broadcast_radius, status := RStatus.pending,
          requested_at := db.now, accepted_at := none, completed_at := none,
          cancelled_at := none, cancellation_reason := none }
      let db1 := { db with rides := db.rides ++ [ride], nextRideId := db.nextRideId + 1 }
      let built := build_offers_for_ride db1 ride
      if built.2.isEmpty then
        .ok (pushEvent built.1 (Event.userGroup passenger "no_drivers_available" ride.id),
             ride.id, 0)
      else
        .ok ((dispatch_next_offer built.1 ride.id).1, ride.id, built.2.length)

/-- `cancel_ride_by_passenger(passenger, ride_id, reason)`: rejects when the
ride's status is `completed`, `cancelled_user` or `cancelled_driver`; else
sets `cancelled_user` with `cancelled_at` and the reason, restores an
assigned driver to `available` and notifies them, notifies the ride group,
then notifies every not-yet-notified driver whose offer had been sent.
Returns whether a driver was assigned. -/
def cancel_ride_by_passenger (db : DB) (passenger : UserId) (rid : RideId)
    (reason : String) : Except Err (DB × Bool) :=
  match db.rides.find? (fun r => r.id == rid && r.passenger == passenger) with
  | none => .error .rideNotFound
  | some ride =>
      if ride.status = RStatus.completed ∨ ride.status = RStatus.cancelled_user ∨
         ride.status = RStatus.cancelled_driver then
        .error .rideNotAvailable
      else
        let hadDriver := ride.driver.isSome
        let db1 := updateRide db rid (fun r =>
          { r with status := RStatus.cancelled_user,
                   cancelled_at := some db.now, cancellation_reason := some reason })
        let st2 :=
          match ride.driver with
          | some did =>
              let dba := updateProfile db1 did (fun p => { p with status := DStatus.available })
              (pushEvent dba (Event.driverGroup did "ride_cancelled" rid), [did])
          | none => (db1, ([] : List UserId))
        let db3 := pushEvent st2.1 (Event.rideGroup rid "ride_cancelled")
        let viewed := ((rideOffers db3 rid).filter (fun o => o.sent_at ≠ none)).map (·.driver)
        let st4 := viewed.foldl
          (fun (st : DB × List UserId) d =>
            if d ∈ st.2 then st
            else (pushEvent st.1 (Event.driverGroup d "ride_cancelled" rid), st.2 ++ [d]))
          (db3, st2.2)
        .ok (st4.1, hadDriver)

/-- The committing tail of `accept_ride`: assign the driver and accept the
ride, resolve the accepted offer and expire the other pending offers when
the driver holds one, notify the passenger, and set the profile busy. -/
def acceptCommit (db : DB) (rid : RideId) (passenger driver : UserId)
    (offer : Option ORow) : DB :=
  let db1 := updateRide db rid (fun r =>
    { r with driver := some driver, status := RStatus.accepted, accepted_at := some db.now })
  let db2 :=
    match offer with
    | some o =>
        let dba := updateOffer db1 o.id
          (fun x => { x with status := OStatus.accepted, responded_at := some db.now })
        { dba with offers := dba.offers.map (fun x =>
            if x.ride == rid && x.id != o.id && x.status == OStatus.pending then
              { x with status := OStatus.expired, responded_at := some db.now }
            else x) }
    | none => db1
  let db3 := pushEvent db2 (Event.userGroup passenger "ride_accepted" rid)
  updateProfile db3 driver (fun p => { p with status := DStatus.busy })

/-- `accept_ride(driver, ride_id)`: requires an existing `available`
profile and a `pending` ride; when the driver has offers on the ride, their
least-order pending offer is required (an expired one yields
`OFFER_EXPIRED`, otherwise `OFFER_NOT_FOUND`); commits via `acceptCommit`. -/
def accept_ride (db : DB) (driver : UserId) (rid : RideId) : Except Err DB :=
  match findProfile db driver with
  | none => .error .rideNotFound
  | some prof =>
      if prof.status ≠ DStatus.available then .error .driverNotAvailable
      else
        match db.rides.find? (fun r => r.id == rid && r.status == RStatus.pending) with
        | none => .error .rideNotAvailable
        | some ride =>
            let offerQs := (rideOffers db rid).filter (fun o => o.driver == driver)
            if offerQs.isEmpty then
              .ok (acceptCommit db rid ride.passenger driver none)
            else
              match firstByOrder (offerQs.filter (fun o => o.status == OStatus.pending)) with
              | some offer => .ok (acceptCommit db rid ride.passenger driver (some offer))
              | none =>
                  if (offerQs.filter (fun o => o.status == OStatus.expired)).isEmpty then
                    .error .offerNotFound
                  else .error .offerExpired

/-- `complete_ride(driver, ride_id)`: requires the ride to be assigned to
this driver with status `accepted` (else `RIDE_NOT_FOUND`); completes it,
increments both participants' `completed_rides`, restores the driver's
profile to `available` (a missing profile row raises out of the atomic
block, rolling everything back), and notifies the passenger and the ride
group. -/
def complete_ride (db : DB) (driver : UserId) (rid : RideId) : Except Err DB :=
  match db.rides.find? (fun r =>
      r.id == rid && r.driver == some driver && r.status == RStatus.accepted) with
  | none => .error .rideNotFound
  | some ride =>
      match findProfile db driver with
      | none => .error .internalError
      | some _ =>
          let db1 := updateRide db rid (fun r =>
            { r with status := RStatus.completed, completed_at := some db.now })
          let db2 := updateUser db1 ride.passenger
            (fun u => { u with completed_rides := u.completed_rides + 1 })
          let db3 := updateUser db2 driver
            (fun u => { u with completed_rides := u.completed_rides + 1 })
          let db4 := updateProfile db3 driver (fun p => { p with status := DStatus.available })
          let db5 := pushEvent db4 (Event.userGroup ride.passenger "ride_completed" rid)
          .ok (pushEvent db5 (Event.rideGroup rid "ride_completed"))

/-! ## Driver status service (`backend/drivers/services.py`) -/

/-- `update_driver_status(profile, new_status)`: stores the new status
unconditionally (the subsequent WebSocket broadcast does not touch the
durable store). -/
def update_driver_status (db : DB) (uid : UserId) (new_status : DStatus) : DB :=
  updateProfile db uid (fun p => { p with status := new_status })

/-! ## Geohash kernel over `ℝ`

`get_covering_geohashes` feeds `encode_geohash` with sample coordinates
computed through `math.cos`, so the same encoding loop is also embedded
over `ℝ`; `encode_geohashR_cast` proves that on rational inputs it agrees
with the exact `ℚ` encoder. -/

/-- `GHState` with real-valued interval bounds. -/
structure GHStateR where
  latLo : ℝ
  latHi : ℝ
  lonLo : ℝ
  lonHi : ℝ
  bit : Nat
  ch : Nat
  isLon : Bool
  acc : List Char

open Classical in
/-- `ghStep` over `ℝ`. -/
noncomputable def ghStepR (lat lon : ℝ) (s : GHStateR) : GHStateR :=
  let s1 :=
    if s.isLon then
      let mid := (s.lonLo + s.lonHi) / 2
      if lon ≥ mid then
        { s with ch := s.ch ||| geohashBits.getD s.bit 0, lonLo := mid }
      else
        { s with lonHi := mid }
    else
      let mid := (s.latLo + s.latHi) / 2
      if lat ≥ mid then
        { s with ch := s.ch ||| geohashBits.getD s.bit 0, latLo := mid }
      else
        { s with latHi := mid }
  let s2 := { s1 with isLon := !s1.isLon }
  if s2.bit < 4 then
    { s2 with bit := s2.bit + 1 }
  else
    { s2 with acc := s2.acc ++ [geohashBase32.toList.getD s2.ch 'x'],
              bit := 0, ch := 0 }

/-- `ghLoop` over `ℝ`. -/
noncomputable def ghLoopR (lat lon : ℝ) (precision : Nat) : Nat → GHStateR → GHStateR
  | 0, s => s
  | fuel + 1, s =>
      if s.acc.length < precision then
        ghLoopR lat lon precision fuel (ghStepR lat lon s)
      else
        s

/-- `ghInit` over `ℝ`. -/
noncomputable def ghInitR : GHStateR :=
  { latLo := -90, latHi := 90, lonLo := -180, lonHi := 180,
    bit := 0, ch := 0, isLon := true, acc := [] }

/-- `encode_geohash` over `ℝ` (the same source function, applied to
real-valued samples). -/
noncomputable def encode_geohashR (lat lon : ℝ) (precision : Nat) : String :=
  String.mk (ghLoopR lat lon precision (5 * precision) ghInitR).acc

/-- Coercion of the encoding state from `ℚ` to `ℝ`. -/
noncomputable def castGH (s : GHState) : GHStateR :=
  { latLo := (s.latLo : ℝ), latHi := (s.latHi : ℝ),
    lonLo := (s.lonLo : ℝ), lonHi := (s.lonHi : ℝ),
    bit := s.bit, ch := s.ch, isLon := s.isLon, acc := s.acc }

/-! ## Covering tiles (`get_covering_geohashes`) -/

/-- `cos_deg(degrees)` from `backend/realtime/geo.py`
(`math.cos(math.radians(degrees))`); `backend/common/utils/geo.py` inlines
the same expression. -/
noncomputable def cos_deg (degrees : ℝ) : ℝ :=
  Real.cos (degrees * Real.pi / 180)

/-- `range(-steps, steps + 1)` with `steps = 3`. -/
def sampleSteps : List ℤ := [-3, -2, -1, 0, 1, 2, 3]

/-- `get_covering_geohashes(lat, lon, radius_meters, precision)`: sample a
7×7 grid in degree space with `lat_offset = radius/111000` and
`lon_offset = radius/(111000*|cos(lat)|)`, encode each sample and collect
the distinct geohashes (the Python set is modelled as the deduplicated
list of encoded samples). -/
noncomputable def get_covering_geohashesR (lat lon radius : ℝ) (precision : Nat) :
    List String :=
  let lat_offset := radius / 111000
  let lon_offset := radius / (111000 * |cos_deg lat|)
  ((sampleSteps.map (fun (lat_step : ℤ) =>
      sampleSteps.map (fun (lon_step : ℤ) =>
        encode_geohashR (lat + ((lat_step : ℝ) * lat_offset / 3))
          (lon + ((lon_step : ℝ) * lon_offset / 3)) precision))).flatten).dedup

/-- The same 7×7 sampling grid with explicitly given rational offsets,
used to evaluate `get_covering_geohashesR` at rational inputs. -/
def coverQ (lat lon latOff lonOff : ℚ) (precision : Nat) : List String :=
  ((sampleSteps.map (fun (lat_step : ℤ) =>
      sampleSteps.map (fun (lon_step : ℤ) =>
        encode_geohash (lat + ((lat_step : ℚ) * latOff / 3))
          (lon + ((lon_step : ℚ) * lonOff / 3)) precision))).flatten).dedup

/-! ## Concrete states used by counterexamples and witnesses -/

/-- A ride that already ended in `no_drivers`. -/
def rideND : RRow :=
  { id := 5, passenger := 2, driver := none, pickup := (0, 0),
    pickup_address := "", dropoff_address := "", number_of_passengers := 1,
    broadcast_radius := 500, status := RStatus.no_drivers, requested_at := 0,
    accepted_at := none, completed_at := none, cancelled_at := none,
    cancellation_reason := none }

/-- Store with one passenger (id 2) whose ride 5 ended in `no_drivers`. -/
def dbND : DB :=
  { users := [⟨2, 0⟩], profiles := [], rides := [rideND],
    offers := [], events := [], now := 7, nextRideId := 6, nextOfferId := 1 }

/-- A ride already cancelled by its passenger. -/
def rideCU : RRow :=
  { rideND with id := 5, status := RStatus.cancelled_user, cancelled_at := some 3 }

/-- A pending, sent, unresponded offer (id 9, driver 3) on ride 5. -/
def offerCU : ORow :=
  { id := 9, ride := 5, driver := 3, order := 0, status := OStatus.pending,
    sent_at := some 1, responded_at := none }

/-- Store where ride 5 was cancelled by the passenger while offer 9 was
still pending in flight (passenger cancellation does not resolve offers). -/
def dbCU : DB :=
  { users := [⟨2, 0⟩], profiles := [⟨3, DStatus.available, some (0, 0)⟩],
    rides := [rideCU], offers := [offerCU], events := [], now := 7,
    nextRideId := 6, nextOfferId := 10 }

/-- Store with a single passenger (id 1), no drivers at all. -/
def dbEmpty : DB :=
  { users := [⟨1, 0⟩], profiles := [], rides := [], offers := [],
    events := [], now := 4, nextRideId := 100, nextOfferId := 1 }

/-- A pending ride (id 7, passenger 1). -/
def ridePend : RRow :=
  { rideND with id := 7, passenger := 1, status := RStatus.pending }

/-- A pending unsent offer (id 20) held by driver 3 on ride 7. -/
def offerD3 : ORow :=
  { id := 20, ride := 7, driver := 3, order := 0, status := OStatus.pending,
    sent_at := some 1, responded_at := none }

/-- Store where ride 7 is pending with a single offer for driver 3, while
driver 4 is available and holds no offer on the ride. -/
def dbAcc : DB :=
  { users := [⟨1, 0⟩, ⟨3, 0⟩, ⟨4, 0⟩],
    profiles := [⟨3, DStatus.available, some (0, 0)⟩,
                 ⟨4, DStatus.available, some (0, 0)⟩],
    rides := [ridePend], offers := [offerD3], events := [], now := 8,
    nextRideId := 8, nextOfferId := 21 }

/-- A ride accepted by driver 1. -/
def rideAcc1 : RRow :=
  { rideND with
    id := 10, passenger := 2, driver := some 1,
    status := RStatus.accepted, accepted_at := some 2 }

/-- Store where driver 1 is `busy` with accepted ride 10. -/
def dbBusy : DB :=
  { users := [⟨1, 3⟩, ⟨2, 4⟩], profiles := [⟨1, DStatus.busy, some (0, 0)⟩],
    rides := [rideAcc1], offers := [], events := [], now := 9,
    nextRideId := 11, nextOfferId := 1 }

/-- The haversine distance from the pickup to a driver's stored location
(0 when the driver has no profile or no location). -/
noncomputable def distOfDriver (db : DB) (pickup : ℚ × ℚ) (u : UserId) : ℝ :=
  match findProfile db u with
  | some p =>
      match p.loc with
      | some l => calculate_distance (pickup.1 : ℝ) (pickup.2 : ℝ) (l.1 : ℝ) (l.2 : ℝ)
      | none => 0
  | none => 0

/-! ## Transfer lemmas between the rational and real embeddings -/

lemma ghStepR_cast (a b : ℚ) (s : GHState) :
    ghStepR (a : ℝ) (b : ℝ) (castGH s) = castGH (ghStep a b s) := by
  have hmidlon : ((s.lonLo : ℝ) + (s.lonHi : ℝ)) / 2 =
      (((s.lonLo + s.lonHi) / 2 : ℚ) : ℝ) := by push_cast; ring
  have hmidlat : ((s.latLo : ℝ) + (s.latHi : ℝ)) / 2 =
      (((s.latLo + s.latHi) / 2 : ℚ) : ℝ) := by push_cast; ring
  have hlon : ((b : ℝ) ≥ (((s.lonLo + s.lonHi) / 2 : ℚ) : ℝ)) ↔
      (b ≥ (s.lonLo + s.lonHi) / 2) :=
    Iff.intro (fun h => by exact_mod_cast h) (fun h => by exact_mod_cast h)
  have hlat : ((a : ℝ) ≥ (((s.latLo + s.latHi) / 2 : ℚ) : ℝ)) ↔
      (a ≥ (s.latLo + s.latHi) / 2) :=
    Iff.intro (fun h => by exact_mod_cast h) (fun h => by exact_mod_cast h)
  unfold ghStepR ghStep castGH
  simp only [hmidlon, hmidlat, hlon, hlat]
  split_ifs <;> rfl

lemma ghLoopR_cast (a b : ℚ) (p fuel : Nat) (s : GHState) :
    ghLoopR (a : ℝ) (b : ℝ) p fuel (castGH s) = castGH (ghLoop a b p fuel s) := by
  induction fuel generalizing s with
  | zero => rfl
  | succ n ih =>
      unfold ghLoopR ghLoop
      have hacc : (castGH s).acc = s.acc := rfl
      rw [hacc]
      split
      · rw [ghStepR_cast, ih]
      · rfl

lemma ghInitR_cast : ghInitR = castGH ghInit := by
  unfold ghInitR ghInit castGH
  norm_num

/-- On rational inputs the real-valued encoder agrees with the exact
rational encoder. -/
lemma encode_geohashR_cast (a b : ℚ) (p : Nat) :
    encode_geohashR (a : ℝ) (b : ℝ) p = encode_geohash a b p := by
  unfold encode_geohashR encode_geohash
  rw [ghInitR_cast, ghLoopR_cast]
  rfl

lemma get_covering_geohashesR_cast (lat lon r lonOff : ℚ) (p : Nat)
    (h : ((r : ℝ)) / (111000 * |cos_deg (lat : ℝ)|) = ((lonOff : ℚ) : ℝ)) :
    get_covering_geohashesR (lat : ℝ) (lon : ℝ) (r : ℝ) p =
      coverQ lat lon (r / 111000) lonOff p := by
  have key : ∀ i j : ℤ,
      encode_geohashR ((lat : ℝ) + (i : ℝ) * ((r : ℝ) / 111000) / 3)
        ((lon : ℝ) + (j : ℝ) * ((r : ℝ) / (111000 * |cos_deg (lat : ℝ)|)) / 3) p =
      encode_geohash (lat + (i : ℚ) * (r / 111000) / 3)
        (lon + (j : ℚ) * lonOff / 3) p := by
    intro i j
    rw [h]
    rw [show ((lat : ℝ) + (i : ℝ) * ((r : ℝ) / 111000) / 3) =
        (((lat + (i : ℚ) * (r / 111000) / 3 : ℚ)) : ℝ) by push_cast; ring]
    rw [show ((lon : ℝ) + (j : ℝ) * (((lonOff : ℚ) : ℝ)) / 3) =
        (((lon + (j : ℚ) * lonOff / 3 : ℚ)) : ℝ) by push_cast; ring]
    exact encode_geohashR_cast _ _ _
  unfold get_covering_geohashesR coverQ
  simp only [key]

/-! ## Generic list helper lemmas -/

lemma find?_map_key {α : Type} (f : α → α) (p : α → Bool)
    (hp : ∀ x, p (f x) = p x) :
    ∀ l : List α, (l.map f).find? p = (l.find? p).map f := by
  intro l
  induction l with
  | nil => rfl
  | cons x xs ih =>
      simp only [List.map_cons, List.find?_cons, hp]
      cases h : p x <;> simp [h, ih]

lemma firstByOrder_mem {l : List ORow} {o : ORow}
    (h : firstByOrder l = some o) : o ∈ l := by
  induction l generalizing o with
  | nil => simp [firstByOrder] at h
  | cons x xs ih =>
      rw [firstByOrder] at h
      rcases hx : firstByOrder xs with _ | b
      · rw [hx] at h
        simp at h
        simp [h]
      · rw [hx] at h
        by_cases hle : x.order ≤ b.order
        · simp [hle] at h
          simp [h]
        · simp [hle] at h
          subst h
          exact List.mem_cons_of_mem _ (ih hx)

lemma mem_insertSorted {α : Type} (le : α → α → Bool) (x a : α) :
    ∀ l : List α, (a ∈ insertSorted le x l ↔ a = x ∨ a ∈ l) := by
  intro l
  induction l with
  | nil => simp [insertSorted]
  | cons y ys ih =>
      rw [insertSorted]
      by_cases h : le y x = true <;> (simp [h, ih]; try tauto)

lemma length_insertSorted {α : Type} (le : α → α → Bool) (x : α) :
    ∀ l : List α, (insertSorted le x l).length = l.length + 1 := by
  intro l
  induction l with
  | nil => rfl
  | cons y ys ih =>
      rw [insertSorted]
      by_cases h : le y x = true <;> simp [h, ih]

lemma mem_sortByLe {α : Type} (le : α → α → Bool) (a : α) :
    ∀ l : List α, (a ∈ sortByLe le l ↔ a ∈ l) := by
  intro l
  induction l with
  | nil => simp [sortByLe]
  | cons y ys ih =>
      rw [sortByLe, mem_insertSorted]
      simp [ih]

lemma length_sortByLe {α : Type} (le : α → α → Bool) :
    ∀ l : List α, (sortByLe le l).length = l.length := by
  intro l
  induction l with
  | nil => rfl
  | cons y ys ih =>
      rw [sortByLe, length_insertSorted, ih]
      rfl

lemma pairwise_insertSorted {α : Type} (le : α → α → Bool)
    (htot : ∀ a b, le a b = true ∨ le b a = true)
    (htrans : ∀ a b c, le a b = true → le b c = true → le a c = true)
    (x : α) :
    ∀ l : List α, l.Pairwise (fun a b => le a b = true) →
      (insertSorted le x l).Pairwise (fun a b => le a b = true) := by
  intro l
  induction l with
  | nil => intro _; simp [insertSorted]
  | cons y ys ih =>
      intro hl
      rw [List.pairwise_cons] at hl
      rw [insertSorted]
      by_cases h : le y x = true
      · rw [if_pos h, List.pairwise_cons]
        refine ⟨fun z hz => ?_, ih hl.2⟩
        rcases (mem_insertSorted le x z ys).mp hz with rfl | hz'
        · exact h
        · exact hl.1 z hz'
      · rw [if_neg h, List.pairwise_cons]
        have hxy : le x y = true := (htot x y).resolve_right h
        refine ⟨fun z hz => ?_, List.pairwise_cons.mpr hl⟩
        rcases List.mem_cons.mp hz with rfl | hz'
        · exact hxy
        · exact htrans x y z hxy (hl.1 z hz')

lemma pairwise_sortByLe {α : Type} (le : α → α → Bool)
    (htot : ∀ a b, le a b = true ∨ le b a = true)
    (htrans : ∀ a b c, le a b = true → le b c = true → le a c = true) :
    ∀ l : List α, (sortByLe le l).Pairwise (fun a b => le a b = true) := by
  intro l
  induction l with
  | nil => simp [sortByLe]
  | cons y ys ih => exact pairwise_insertSorted le htot htrans y _ ih

/-! ## Lookup/update interaction lemmas -/

lemma findOffer_updateOffer (db : DB) (oid oid' : OfferId) (f : ORow → ORow)
    (hf : ∀ o, (f o).id = o.id) :
    findOffer (updateOffer db oid f) oid' =
      (findOffer db oid').map (fun o => if o.id = oid then f o else o) := by
  unfold findOffer updateOffer
  exact find?_map_key _ _
    (fun x => by by_cases h : x.id = oid <;> simp [h, hf]) _

lemma findRide_updateRide (db : DB) (rid rid' : RideId) (f : RRow → RRow)
    (hf : ∀ r, (f r).id = r.id) :
    findRide (updateRide db rid f) rid' =
      (findRide db rid').map (fun r => if r.id = rid then f r else r) := by
  unfold findRide updateRide
  exact find?_map_key _ _
    (fun x => by by_cases h : x.id = rid <;> simp [h, hf]) _

lemma findProfile_updateProfile (db : DB) (uid uid' : UserId) (f : PRow → PRow)
    (hf : ∀ p, (f p).user = p.user) :
    findProfile (updateProfile db uid f) uid' =
      (findProfile db uid').map (fun p => if p.user = uid then f p else p) := by
  unfold findProfile updateProfile
  exact find?_map_key _ _
    (fun x => by by_cases h : x.user = uid <;> simp [h, hf]) _

lemma findUser_updateUser (db : DB) (uid uid' : UserId) (f : URow → URow)
    (hf : ∀ u, (f u).id = u.id) :
    findUser (updateUser db uid f) uid' =
      (findUser db uid').map (fun u => if u.id = uid then f u else u) := by
  unfold findUser updateUser
  exact find?_map_key _ _
    (fun x => by by_cases h : x.id = uid <;> simp [h, hf]) _

/-! ## Geohash loop invariants (for claim C10) -/

lemma ghStep_shape (lat lon : ℚ) (s : GHState) :
    ∃ ch₁ : Nat, (ch₁ = s.ch ∨ ch₁ = s.ch ||| geohashBits.getD s.bit 0) ∧
      ((s.bit < 4 ∧ (ghStep lat lon s).bit = s.bit + 1 ∧
          (ghStep lat lon s).ch = ch₁ ∧ (ghStep lat lon s).acc = s.acc) ∨
       (¬ s.bit < 4 ∧ (ghStep lat lon s).bit = 0 ∧ (ghStep lat lon s).ch = 0 ∧
          (ghStep lat lon s).acc =
            s.acc ++ [geohashBase32.toList.getD ch₁ 'x'])) := by
  unfold ghStep
  by_cases hL : s.isLon = true
  · by_cases hcmp : lon ≥ (s.lonLo + s.lonHi) / 2
    · by_cases hbit : s.bit < 4
      · exact ⟨s.ch ||| geohashBits.getD s.bit 0, Or.inr rfl,
          Or.inl ⟨hbit, by simp [hL, hcmp, hbit]⟩⟩
      · exact ⟨s.ch ||| geohashBits.getD s.bit 0, Or.inr rfl,
          Or.inr ⟨hbit, by simp [hL, hcmp, hbit]⟩⟩
    · by_cases hbit : s.bit < 4
      · exact ⟨s.ch, Or.inl rfl, Or.inl ⟨hbit, by simp [hL, hcmp, hbit]⟩⟩
      · exact ⟨s.ch, Or.inl rfl, Or.inr ⟨hbit, by simp [hL, hcmp, hbit]⟩⟩
  · by_cases hcmp : lat ≥ (s.latLo + s.latHi) / 2
    · by_cases hbit : s.bit < 4
      · exact ⟨s.ch ||| geohashBits.getD s.bit 0, Or.inr rfl,
          Or.inl ⟨hbit, by simp [hL, hcmp, hbit]⟩⟩
      · exact ⟨s.ch ||| geohashBits.getD s.bit 0, Or.inr rfl,
          Or.inr ⟨hbit, by simp [hL, hcmp, hbit]⟩⟩
    · by_cases hbit : s.bit < 4
      · exact ⟨s.ch, Or.inl rfl, Or.inl ⟨hbit, by simp [hL, hcmp, hbit]⟩⟩
      · exact ⟨s.ch, Or.inl rfl, Or.inr ⟨hbit, by simp [hL, hcmp, hbit]⟩⟩

lemma geohashBits_lt (bit : Nat) : geohashBits.getD bit 0 < 32 := by
  rcases bit with _ | _ | _ | _ | _ | n <;> simp [geohashBits]

lemma ghLoop_closes (lat lon : ℚ) (p : Nat) :
    ∀ (fuel : Nat) (s : GHState),
      s.bit ≤ 4 → s.ch < 32 → s.acc.length ≤ p →
      fuel + 5 * s.acc.length + s.bit = 5 * p →
      (∀ c ∈ s.acc, c ∈ geohashBase32.toList) →
      (ghLoop lat lon p fuel s).acc.length = p ∧
        ∀ c ∈ (ghLoop lat lon p fuel s).acc, c ∈ geohashBase32.toList := by
  intro fuel
  induction fuel with
  | zero =>
      intro s hbit hch hlen hfuel hacc
      have : s.acc.length = p := by omega
      rw [ghLoop]
      exact ⟨this, hacc⟩
  | succ n ih =>
      intro s hbit hch hlen hfuel hacc
      have hlt : s.acc.length < p := by omega
      rw [ghLoop, if_pos hlt]
      obtain ⟨ch₁, hch₁, hcase⟩ := ghStep_shape lat lon s
      have hch₁lt : ch₁ < 32 := by
        rcases hch₁ with rfl | rfl
        · exact hch
        · have h1 : s.ch < 2 ^ 5 := hch
          have h2 : geohashBits.getD s.bit 0 < 2 ^ 5 := geohashBits_lt s.bit
          have := Nat.bitwise_lt_two_pow (f := or) h1 h2
          simpa [Nat.lor] using this
      rcases hcase with ⟨h4, hb, hc, ha⟩ | ⟨h4, hb, hc, ha⟩
      · have hal : (ghStep lat lon s).acc.length = s.acc.length := by rw [ha]
        exact ih (ghStep lat lon s) (by omega) (hc ▸ hch₁lt) (by omega)
          (by omega) (by rw [ha]; exact hacc)
      · have hmem : geohashBase32.toList.getD ch₁ 'x' ∈ geohashBase32.toList := by
          have hlen32 : geohashBase32.toList.length = 32 := by decide
          rw [List.getD_eq_getElem _ _ (by omega)]
          exact List.getElem_mem _
        have hal : (ghStep lat lon s).acc.length = s.acc.length + 1 := by
          rw [ha, List.length_append, List.length_singleton]
        refine ih (ghStep lat lon s) (by omega) (by omega) (by omega) (by omega) ?_
        rw [ha]
        intro c hc'
        rcases List.mem_append.mp hc' with h | h
        · exact hacc c h
        · have : c = geohashBase32.toList.getD ch₁ 'x' := by simpa using h
          rw [this]
          exact hmem

/-! ## Claim theorems -/

/-- C10: for every latitude/longitude (including values outside the
geographic ranges) and every precision `p`, `encode_geohash` terminates
(it is a total function of fuel `5 * p`), returns a string of exactly `p`
characters drawn from the base-32 alphabet
`0123456789bcdefghjkmnpqrstuvwxyz`, and is deterministic (equal inputs
give equal outputs). -/
theorem claim_C10_encode_total (lat lon : ℚ) (p : Nat) :
    (encode_geohash lat lon p).length = p ∧
    (∀ c ∈ (encode_geohash lat lon p).toList, c ∈ geohashBase32.toList) ∧
    (∀ lat2 lon2 : ℚ, lat2 = lat → lon2 = lon →
      encode_geohash lat2 lon2 p = encode_geohash lat lon p) := by
  have h := ghLoop_closes lat lon p (5 * p) ghInit (by simp [ghInit])
    (by simp [ghInit]) (by simp [ghInit]) (by simp [ghInit]) (by simp [ghInit])
  refine ⟨h.1, h.2, ?_⟩
  intro lat2 lon2 h1 h2
  rw [h1, h2]

/-- C10 witness: the theorem applied at the concrete input `(0, 0, 6)`. -/
theorem claim_C10_witness :
    (encode_geohash 0 0 6).length = 6 ∧ encode_geohash 0 0 6 = encode_geohash 0 0 6 :=
  ⟨(claim_C10_encode_total 0 0 6).1, (claim_C10_encode_total 0 0 6).2.2 0 0 rfl rfl⟩

/-- C5: evaluating `get_geohash_neighbors` at the failing input `"ttnfv2"`
shows the code bug: it returns only the tile and its 5-character parent
cell (2 entries, one of a different precision), not the tile plus its
8 same-precision cardinal/diagonal neighbors (9 entries) promised by the
claim and by the function's own docstring. -/
theorem claim_C5_neighbors_eval :
    get_geohash_neighbors "ttnfv2" = ["ttnfv2", "ttnfv"] ∧
    (get_geohash_neighbors "ttnfv2").length = 2 ∧
    ("ttnfv" : String).length ≠ ("ttnfv2" : String).length := by
  decide

/-- C1 counterexample: ride 5 of store `dbND` is in the terminal status
`no_drivers`, yet `cancel_ride_by_passenger` succeeds on it and moves it
to `cancelled_user` — refuting both "terminal statuses are absorbing" and
"cancel_by_passenger fails on a ride already in a terminal status
(including no_drivers)". -/
theorem claim_C1_counterexample :
    (findRide dbND 5).map (·.status) = some RStatus.no_drivers ∧
    (cancel_ride_by_passenger dbND 2 5 "changed mind").isOk = true ∧
    (match cancel_ride_by_passenger dbND 2 5 "changed mind" with
     | .ok q => (findRide q.1 5).map (·.status)
     | .error _ => none) = some RStatus.cancelled_user := by
  decide

/-- C2 counterexample: creating a ride for passenger 1 in `dbEmpty`
(no drivers at all, radius 0) succeeds, pushes `no_drivers_available`,
creates no offers — but leaves the ride in status `pending`, not
`no_drivers` as the claim states. -/
theorem claim_C2_counterexample :
    (match create_ride_request dbEmpty 1 (5/2) (3/2) "a" "b" 1 0 with
     | .ok q => ((findRide q.1 q.2.1).map (·.status), q.2.2, q.1.events)
     | .error _ => (none, 99, [])) =
      (some RStatus.pending, 0, [Event.userGroup 1 "no_drivers_available" 100]) ∧
    some RStatus.pending ≠ some RStatus.no_drivers := by
  decide

/-- C3 counterexample: in `dbAcc` ride 7 has one (pending) offer, held by
driver 3; driver 4 is `available` and holds no offer on the ride, yet
`accept_ride` by driver 4 succeeds — refuting "accept succeeds exactly
when … (when any offers exist for the ride) the driver holds a pending
offer on it". -/
theorem claim_C3_counterexample :
    (rideOffers dbAcc 7).map (·.driver) = [3] ∧
    (accept_ride dbAcc 4 7).isOk = true ∧
    (match accept_ride dbAcc 4 7 with
     | .ok db' => ((findRide db' 7).map (·.status), (findRide db' 7).map (·.driver))
     | .error _ => (none, none)) = (some RStatus.accepted, some (some 4)) := by
  decide

/-- C4 counterexample: in `dbBusy` driver 1 is `busy` with accepted ride
10, yet `update_driver_status` moves the profile to `available` while the
ride stays `accepted` — refuting "update_driver_status rejects any
transition out of busy while a ride assigned to that driver is accepted"
and breaking the busy ⇔ accepted-ride biconditional. -/
theorem claim_C4_counterexample :
    (findProfile dbBusy 1).map (·.status) = some DStatus.busy ∧
    (findRide dbBusy 10).map (·.status) = some RStatus.accepted ∧
    (findRide dbBusy 10).map (·.driver) = some (some 1) ∧
    (findProfile (update_driver_status dbBusy 1 DStatus.available) 1).map (·.status) =
      some DStatus.available ∧
    (findRide (update_driver_status dbBusy 1 DStatus.available) 10).map (·.status) =
      some RStatus.accepted := by
  decide

/-- C4 amended: `update_driver_status` stores the requested status
unconditionally — even out of `busy` while an accepted ride is assigned —
and touches no ride rows, so it does not preserve the busy ⇔ unique
accepted-ride biconditional. -/
theorem claim_C4_amended (db : DB) (uid : UserId) (st : DStatus) (p : PRow)
    (hp : findProfile db uid = some p) :
    findProfile (update_driver_status db uid st) uid = some { p with status := st } ∧
    (update_driver_status db uid st).rides = db.rides := by
  refine ⟨?_, rfl⟩
  have hu : p.user = uid := by
    have := List.find?_some (by simpa [findProfile] using hp)
    simpa using this
  rw [update_driver_status,
    findProfile_updateProfile db uid uid (fun q => { q with status := st })
      (fun _ => rfl), hp]
  simp [hu]

/-- C4 witness: the amended theorem applied at the concrete `dbBusy`. -/
theorem claim_C4_witness :
    findProfile (update_driver_status dbBusy 1 DStatus.available) 1 =
      some { user := 1, status := DStatus.available, loc := some (0, 0) } ∧
    (update_driver_status dbBusy 1 DStatus.available).rides = dbBusy.rides := by
  have h := claim_C4_amended dbBusy 1 DStatus.available
    ⟨1, DStatus.busy, some (0, 0)⟩ (by decide)
  exact h

lemma findOffer_offers_eq {db db' : DB} (h : db'.offers = db.offers) (oid : OfferId) :
    findOffer db' oid = findOffer db oid := by
  unfold findOffer
  rw [h]

lemma findOffer_dispatch_ne (db : DB) (rid : RideId) (oid : OfferId)
    (hstat : ∀ x ∈ db.offers, x.id = oid → x.status ≠ OStatus.pending) :
    findOffer (dispatch_next_offer db rid).1 oid = findOffer db oid := by
  rcases hdisp : firstByOrder ((rideOffers db rid).filter
      (fun x => x.status == OStatus.pending && x.sent_at == none)) with _ | off
  · simp only [dispatch_next_offer, hdisp]
  · simp only [dispatch_next_offer, hdisp]
    have hmem := firstByOrder_mem hdisp
    have hoffp : off.status = OStatus.pending := by
      have := (List.mem_filter.mp hmem).2
      simp at this
      exact this.1
    have hoffmem : off ∈ db.offers := by
      have := (List.mem_filter.mp hmem).1
      exact (List.mem_filter.mp this).1
    have hne : off.id ≠ oid := fun h => (hstat off hoffmem h) hoffp
    show findOffer (updateOffer db off.id (fun x => { x with sent_at := some db.now })) oid = _
    rw [findOffer_updateOffer db off.id oid (fun x => { x with sent_at := some db.now })
      (fun _ => rfl)]
    rcases hz : findOffer db oid with _ | z
    · rfl
    · have hzid : z.id = oid := by
        have := List.find?_some (by simpa [findOffer] using hz)
        simpa using this
      rw [Option.map_some']
      rw [if_neg (by rw [hzid]; exact fun h => hne h.symm)]

lemma expire_post_offers (db : DB) (o : ORow) (hpend : o.status = OStatus.pending) :
    (expire_offer_and_dispatch db o).1.offers =
      (dispatch_next_offer (pushEvent (updateOffer db o.id
        (fun x => { x with status := OStatus.expired, responded_at := some db.now }))
        (Event.driverGroup o.driver "ride_expired" o.ride)) o.ride).1.offers := by
  simp only [expire_offer_and_dispatch, ne_eq, hpend, not_true_eq_false, if_false]
  split
  · split <;> rfl
  · rfl

lemma findOffer_expire (db : DB) (o : ORow) (oid : OfferId)
    (hfind : findOffer db oid = some o) (hpend : o.status = OStatus.pending) :
    findOffer (expire_offer_and_dispatch db o).1 oid =
      some { o with status := OStatus.expired, responded_at := some db.now } := by
  have hid : o.id = oid := by
    have := List.find?_some (by simpa [findOffer] using hfind)
    simpa using this
  have h1 : findOffer (updateOffer db o.id
      (fun x => { x with status := OStatus.expired, responded_at := some db.now })) oid =
      some { o with status := OStatus.expired, responded_at := some db.now } := by
    rw [findOffer_updateOffer db o.id oid
      (fun x => { x with status := OStatus.expired, responded_at := some db.now })
      (fun _ => rfl), hfind]
    simp [hid]
  set db2 := pushEvent (updateOffer db o.id
    (fun x => { x with status := OStatus.expired, responded_at := some db.now }))
    (Event.driverGroup o.driver "ride_expired" o.ride) with hdb2
  have h2 : findOffer db2 oid =
      some { o with status := OStatus.expired, responded_at := some db.now } := h1
  have hstat : ∀ x ∈ db2.offers, x.id = oid → x.status ≠ OStatus.pending := by
    intro x hx hxid
    rw [hdb2] at hx
    simp only [pushEvent, updateOffer] at hx
    rcases List.mem_map.mp hx with ⟨y, _, hyx⟩
    by_cases hyid : y.id = o.id
    · rw [if_pos hyid] at hyx
      rw [← hyx]
      simp
    · rw [if_neg hyid] at hyx
      rw [← hyx] at hxid
      exact absurd (hxid.trans hid.symm) hyid
  calc findOffer (expire_offer_and_dispatch db o).1 oid
      = findOffer (dispatch_next_offer db2 o.ride).1 oid :=
        findOffer_offers_eq (expire_post_offers db o hpend) oid
    _ = findOffer db2 oid := findOffer_dispatch_ne db2 o.ride oid hstat
    _ = _ := h2

/-- C9: invoking `expire_ride_offer_task` twice for the same offer id
produces exactly the same database state as invoking it once: the first
call leaves the offer non-pending, so the second call is a no-op. -/
theorem claim_C9_expire_idempotent (db : DB) (oid : OfferId) :
    expire_ride_offer_task (expire_ride_offer_task db oid) oid =
      expire_ride_offer_task db oid := by
  rcases hfind : findOffer db oid with _ | o
  · have h1 : expire_ride_offer_task db oid = db := by
      unfold expire_ride_offer_task
      rw [hfind]
    rw [h1]
    exact h1
  · by_cases hguard : o.status = OStatus.pending ∧ o.responded_at = none
    · have h1 : expire_ride_offer_task db oid = (expire_offer_and_dispatch db o).1 := by
        simp only [expire_ride_offer_task, hfind, if_pos hguard]
      have h2 := findOffer_expire db o oid hfind hguard.1
      rw [h1]
      unfold expire_ride_offer_task
      rw [h2]
      exact if_neg (by simp)
    · have h1 : expire_ride_offer_task db oid = db := by
        unfold expire_ride_offer_task
        rw [hfind]
        exact if_neg hguard
      rw [h1]
      exact h1

/-! ## Table-projection lemmas: each update touches only its own table -/

@[simp] lemma findRide_pushEvent (db : DB) (e : Event) (rid : RideId) :
    findRide (pushEvent db e) rid = findRide db rid := rfl

@[simp] lemma findRide_updateProfile (db : DB) (u : UserId) (f : PRow → PRow) (rid : RideId) :
    findRide (updateProfile db u f) rid = findRide db rid := rfl

@[simp] lemma findRide_updateUser (db : DB) (u : UserId) (f : URow → URow) (rid : RideId) :
    findRide (updateUser db u f) rid = findRide db rid := rfl

@[simp] lemma findRide_updateOffer (db : DB) (o : OfferId) (f : ORow → ORow) (rid : RideId) :
    findRide (updateOffer db o f) rid = findRide db rid := rfl

@[simp] lemma findProfile_pushEvent (db : DB) (e : Event) (u : UserId) :
    findProfile (pushEvent db e) u = findProfile db u := rfl

@[simp] lemma findProfile_updateRide (db : DB) (r : RideId) (f : RRow → RRow) (u : UserId) :
    findProfile (updateRide db r f) u = findProfile db u := rfl

@[simp] lemma findProfile_updateUser (db : DB) (u' : UserId) (f : URow → URow) (u : UserId) :
    findProfile (updateUser db u' f) u = findProfile db u := rfl

@[simp] lemma findProfile_updateOffer (db : DB) (o : OfferId) (f : ORow → ORow) (u : UserId) :
    findProfile (updateOffer db o f) u = findProfile db u := rfl

@[simp] lemma findUser_pushEvent (db : DB) (e : Event) (u : UserId) :
    findUser (pushEvent db e) u = findUser db u := rfl

@[simp] lemma findUser_updateRide (db : DB) (r : RideId) (f : RRow → RRow) (u : UserId) :
    findUser (updateRide db r f) u = findUser db u := rfl

@[simp] lemma findUser_updateProfile (db : DB) (u' : UserId) (f : PRow → PRow) (u : UserId) :
    findUser (updateProfile db u' f) u = findUser db u := rfl

@[simp] lemma findUser_updateOffer (db : DB) (o : OfferId) (f : ORow → ORow) (u : UserId) :
    findUser (updateOffer db o f) u = findUser db u := rfl

@[simp] lemma findOffer_pushEvent (db : DB) (e : Event) (o : OfferId) :
    findOffer (pushEvent db e) o = findOffer db o := rfl

@[simp] lemma findOffer_updateRide (db : DB) (r : RideId) (f : RRow → RRow) (o : OfferId) :
    findOffer (updateRide db r f) o = findOffer db o := rfl

@[simp] lemma findOffer_updateProfile (db : DB) (u : UserId) (f : PRow → PRow) (o : OfferId) :
    findOffer (updateProfile db u f) o = findOffer db o := rfl

@[simp] lemma findOffer_updateUser (db : DB) (u : UserId) (f : URow → URow) (o : OfferId) :
    findOffer (updateUser db u f) o = findOffer db o := rfl

@[simp] lemma events_updateRide (db : DB) (r : RideId) (f : RRow → RRow) :
    (updateRide db r f).events = db.events := rfl

@[simp] lemma events_updateProfile (db : DB) (u : UserId) (f : PRow → PRow) :
    (updateProfile db u f).events = db.events := rfl

@[simp] lemma events_updateUser (db : DB) (u : UserId) (f : URow → URow) :
    (updateUser db u f).events = db.events := rfl

@[simp] lemma events_updateOffer (db : DB) (o : OfferId) (f : ORow → ORow) :
    (updateOffer db o f).events = db.events := rfl

@[simp] lemma events_pushEvent (db : DB) (e : Event) :
    (pushEvent db e).events = db.events ++ [e] := rfl

@[simp] lemma offers_updateRide (db : DB) (r : RideId) (f : RRow → RRow) :
    (updateRide db r f).offers = db.offers := rfl

@[simp] lemma offers_updateProfile (db : DB) (u : UserId) (f : PRow → PRow) :
    (updateProfile db u f).offers = db.offers := rfl

@[simp] lemma offers_updateUser (db : DB) (u : UserId) (f : URow → URow) :
    (updateUser db u f).offers = db.offers := rfl

@[simp] lemma offers_pushEvent (db : DB) (e : Event) :
    (pushEvent db e).offers = db.offers := rfl

@[simp] lemma now_updateRide (db : DB) (r : RideId) (f : RRow → RRow) :
    (updateRide db r f).now = db.now := rfl

@[simp] lemma now_updateProfile (db : DB) (u : UserId) (f : PRow → PRow) :
    (updateProfile db u f).now = db.now := rfl

@[simp] lemma now_updateUser (db : DB) (u : UserId) (f : URow → URow) :
    (updateUser db u f).now = db.now := rfl

@[simp] lemma now_updateOffer (db : DB) (o : OfferId) (f : ORow → ORow) :
    (updateOffer db o f).now = db.now := rfl

@[simp] lemma now_pushEvent (db : DB) (e : Event) :
    (pushEvent db e).now = db.now := rfl

/-- C8 statement (see RESULTS). -/
theorem claim_C8_complete_ride (db : DB) (driver : UserId) (rid : RideId) :
    (db.rides.find? (fun r => r.id == rid && r.driver == some driver &&
        r.status == RStatus.accepted) = none →
      complete_ride db driver rid = .error .rideNotFound) ∧
    (∀ db', complete_ride db driver rid = .ok db' →
      db.rides.find? (fun r => r.id == rid && r.driver == some driver &&
        r.status == RStatus.accepted) ≠ none) ∧
    (∀ ride, db.rides.find? (fun r => r.id == rid && r.driver == some driver &&
        r.status == RStatus.accepted) = some ride →
      findProfile db driver ≠ none →
      ∃ db', complete_ride db driver rid = .ok db' ∧
        findRide db' rid = (findRide db rid).map
          (fun r => { r with status := RStatus.completed, completed_at := some db.now }) ∧
        (∀ uid, (findUser db' uid).map (·.completed_rides) =
          (findUser db uid).map (fun u => u.completed_rides +
            (if uid = ride.passenger then 1 else 0) + (if uid = driver then 1 else 0))) ∧
        findProfile db' driver = (findProfile db driver).map
          (fun q => { q with status := DStatus.available }) ∧
        db'.events = db.events ++ [Event.userGroup ride.passenger "ride_completed" rid,
          Event.rideGroup rid "ride_completed"]) := by
  refine ⟨?_, ?_, ?_⟩
  · intro hnone
    unfold complete_ride
    rw [hnone]
  · intro db' hok hnone
    unfold complete_ride at hok
    rw [hnone] at hok
    exact Except.noConfusion hok
  · intro ride hfind hprof
    rcases hp : findProfile db driver with _ | prof
    · exact absurd hp hprof
    have hpu : prof.user = driver := by
      have := List.find?_some (by simpa [findProfile] using hp)
      simpa using this
    unfold complete_ride
    rw [hfind, hp]
    refine ⟨_, rfl, ?_, ?_, ?_, ?_⟩
    · simp only [findRide_pushEvent, findRide_updateProfile, findRide_updateUser]
      rw [findRide_updateRide db rid rid
        (fun r => { r with status := RStatus.completed, completed_at := some db.now })
        (fun _ => rfl)]
      rcases hz : findRide db rid with _ | z
      · rfl
      · have hzid : z.id = rid := by
          have := List.find?_some (by simpa [findRide] using hz)
          simpa using this
        rw [Option.map_some', Option.map_some', if_pos hzid]
    · intro uid
      simp only [findUser_pushEvent, findUser_updateProfile]
      rw [findUser_updateUser _ driver uid
        (fun u => { u with completed_rides := u.completed_rides + 1 }) (fun _ => rfl)]
      rw [findUser_updateUser _ ride.passenger uid
        (fun u => { u with completed_rides := u.completed_rides + 1 }) (fun _ => rfl)]
      simp only [findUser_updateRide]
      rcases hu : findUser db uid with _ | u
      · rfl
      · have huid : u.id = uid := by
          have := List.find?_some (by simpa [findUser] using hu)
          simpa using this
        simp only [Option.map_some']
        by_cases hup : uid = ride.passenger <;> by_cases hud : uid = driver
        · have hpd : ride.passenger = driver := hup.symm.trans hud
          simp [huid, hup, hud, hpd]
        · have hpd : ¬ ride.passenger = driver := fun h => hud (hup.trans h)
          simp [huid, hup, hud, hpd]
        · have hpd : ¬ driver = ride.passenger := fun h => hup (hud.trans h)
          simp [huid, hup, hud, hpd]
        · simp [huid, hup, hud]
    · simp only [findProfile_pushEvent]
      rw [findProfile_updateProfile _ driver driver
        (fun q => { q with status := DStatus.available }) (fun _ => rfl)]
      simp only [findProfile_updateUser, findProfile_updateRide]
      rw [hp, Option.map_some', Option.map_some', if_pos hpu]
    · simp only [events_pushEvent, events_updateProfile, events_updateUser,
        events_updateRide, List.append_assoc]
      rfl

/-- C8 witness: completing accepted ride 10 in `dbBusy` by driver 1
increments the passenger's counter 4→5 and the driver's 3→4, completes
the ride and frees the driver. -/
theorem claim_C8_witness :
    (match complete_ride dbBusy 1 10 with
     | .ok db' => ((findUser db' 2).map (·.completed_rides),
         (findUser db' 1).map (·.completed_rides),
         (findProfile db' 1).map (·.status), (findRide db' 10).map (·.status))
     | .error _ => (none, none, none, none)) =
      (some 5, some 4, some DStatus.available, some RStatus.completed) := by
  obtain ⟨db', hok, hride, husers, hprof, hev⟩ :=
    (claim_C8_complete_ride dbBusy 1 10).2.2 rideAcc1 (by decide) (by decide)
  rw [hok]
  show ((findUser db' 2).map (fun x => x.completed_rides),
      (findUser db' 1).map (fun x => x.completed_rides),
      (findProfile db' 1).map (fun x => x.status),
      (findRide db' 10).map (fun x => x.status)) = _
  rw [husers 2, husers 1, hprof, hride]
  decide

lemma findRide_rides_eq {db db' : DB} (h : db'.rides = db.rides) (rid : RideId) :
    findRide db' rid = findRide db rid := by
  unfold findRide
  rw [h]

lemma findProfile_profiles_eq {db db' : DB} (h : db'.profiles = db.profiles) (uid : UserId) :
    findProfile db' uid = findProfile db uid := by
  unfold findProfile
  rw [h]

lemma findUser_users_eq {db db' : DB} (h : db'.users = db.users) (uid : UserId) :
    findUser db' uid = findUser db uid := by
  unfold findUser
  rw [h]

lemma dispatch_rides (db : DB) (rid : RideId) :
    (dispatch_next_offer db rid).1.rides = db.rides := by
  rcases h : firstByOrder ((rideOffers db rid).filter
      (fun o => o.status == OStatus.pending && o.sent_at == none)) with _ | off <;>
    (simp only [dispatch_next_offer, h]; try rfl)

lemma dispatch_snd_now (db : DB) (rid : RideId) :
    (dispatch_next_offer db rid).1.now = db.now := by
  rcases h : firstByOrder ((rideOffers db rid).filter
      (fun o => o.status == OStatus.pending && o.sent_at == none)) with _ | off <;>
    (simp only [dispatch_next_offer, h]; try rfl)

lemma rideOffers_offers_eq {db db' : DB} (h : db'.offers = db.offers) (rid : RideId) :
    rideOffers db' rid = rideOffers db rid := by
  unfold rideOffers
  rw [h]

lemma expire_snd (db : DB) (o : ORow) (hpend : o.status = OStatus.pending) :
    (expire_offer_and_dispatch db o).2 =
      (dispatch_next_offer (pushEvent (updateOffer db o.id
        (fun x => { x with status := OStatus.expired, responded_at := some db.now }))
        (Event.driverGroup o.driver "ride_expired" o.ride)) o.ride).2 := by
  simp only [expire_offer_and_dispatch, ne_eq, hpend, not_true_eq_false, if_false]
  split
  · split <;> rfl
  · rfl

lemma expire_rides_no_drivers (db : DB) (o : ORow) (hpend : o.status = OStatus.pending)
    (hd : (dispatch_next_offer (pushEvent (updateOffer db o.id
        (fun x => { x with status := OStatus.expired, responded_at := some db.now }))
        (Event.driverGroup o.driver "ride_expired" o.ride)) o.ride).2 = false)
    (hnp : (rideOffers (dispatch_next_offer (pushEvent (updateOffer db o.id
        (fun x => { x with status := OStatus.expired, responded_at := some db.now }))
        (Event.driverGroup o.driver "ride_expired" o.ride)) o.ride).1 o.ride).any
        (fun x => x.status == OStatus.pending) = false) :
    (expire_offer_and_dispatch db o).1.rides =
      (updateRide (dispatch_next_offer (pushEvent (updateOffer db o.id
        (fun x => { x with status := OStatus.expired, responded_at := some db.now }))
        (Event.driverGroup o.driver "ride_expired" o.ride)) o.ride).1
        o.ride (fun r => { r with status := RStatus.no_drivers })).rides := by
  simp only [expire_offer_and_dispatch, ne_eq, hpend, not_true_eq_false, if_false]
  rw [if_pos (by rw [hd, hnp]; rfl)]
  rcases findRide (updateRide (dispatch_next_offer _ o.ride).1 o.ride
      (fun r => { r with status := RStatus.no_drivers })) o.ride with _ | r <;> rfl

@[simp] lemma rides_pushEvent (db : DB) (e : Event) :
    (pushEvent db e).rides = db.rides := rfl

@[simp] lemma rides_updateProfile (db : DB) (u : UserId) (f : PRow → PRow) :
    (updateProfile db u f).rides = db.rides := rfl

@[simp] lemma rides_updateUser (db : DB) (u : UserId) (f : URow → URow) :
    (updateUser db u f).rides = db.rides := rfl

@[simp] lemma rides_updateOffer (db : DB) (o : OfferId) (f : ORow → ORow) :
    (updateOffer db o f).rides = db.rides := rfl

lemma findRide_notifyFold (l : List UserId) (init : DB × List UserId)
    (rid rid' : RideId) :
    findRide (l.foldl (fun (st : DB × List UserId) d =>
      if d ∈ st.2 then st
      else (pushEvent st.1 (Event.driverGroup d "ride_cancelled" rid), st.2 ++ [d]))
      init).1 rid' = findRide init.1 rid' := by
  induction l generalizing init with
  | nil => rfl
  | cons x xs ih =>
      rw [List.foldl_cons]
      by_cases hx : x ∈ init.2
      · rw [if_pos hx]
        exact ih init
      · rw [if_neg hx]
        exact (ih _).trans rfl

/-- C1 amended: among the terminal statuses only `completed`,
`cancelled_user` and `cancelled_driver` are rejected by
`cancel_ride_by_passenger` (a `no_drivers` ride is cancelled normally,
becoming `cancelled_user`); and `expire_offer_and_dispatch` transitions
the ride to `no_drivers` whenever it expires a pending offer, dispatch
fails and no pending offers remain — regardless of the ride's current
status (there is no still-pending guard). -/
theorem claim_C1_amended :
    (∀ (db : DB) (passenger : UserId) (rid : RideId) (reason : String) (ride : RRow),
      db.rides.find? (fun r => r.id == rid && r.passenger == passenger) = some ride →
      ((cancel_ride_by_passenger db passenger rid reason = .error .rideNotAvailable ↔
        (ride.status = RStatus.completed ∨ ride.status = RStatus.cancelled_user ∨
         ride.status = RStatus.cancelled_driver)) ∧
       (¬(ride.status = RStatus.completed ∨ ride.status = RStatus.cancelled_user ∨
          ride.status = RStatus.cancelled_driver) →
        ∃ res, cancel_ride_by_passenger db passenger rid reason = .ok res ∧
          findRide res.1 rid = (findRide db rid).map
            (fun r => { r with
              status := RStatus.cancelled_user,
              cancelled_at := some db.now, cancellation_reason := some reason })))) ∧
    (∀ (db : DB) (o : ORow) (r0 : RRow),
      o.status = OStatus.pending →
      (expire_offer_and_dispatch db o).2 = false →
      ((rideOffers (expire_offer_and_dispatch db o).1 o.ride).filter
        (fun x => x.status == OStatus.pending)) = [] →
      findRide db o.ride = some r0 →
      findRide (expire_offer_and_dispatch db o).1 o.ride =
        some { r0 with status := RStatus.no_drivers }) := by
  constructor
  · intro db passenger rid reason ride hfind
    constructor
    · by_cases h3 : ride.status = RStatus.completed ∨ ride.status = RStatus.cancelled_user ∨
          ride.status = RStatus.cancelled_driver
      · simp only [cancel_ride_by_passenger, hfind, if_pos h3]
        simp [h3]
      · simp only [cancel_ride_by_passenger, hfind, if_neg h3]
        simp [h3]
    · intro h3
      simp only [cancel_ride_by_passenger, hfind, if_neg h3]
      refine ⟨_, rfl, ?_⟩
      rw [findRide_notifyFold]
      rcases hdrv : ride.driver with _ | did <;>
        simp only [hdrv, findRide_pushEvent, findRide_updateProfile] <;>
        · rw [findRide_updateRide db rid rid
            (fun r => { r with
              status := RStatus.cancelled_user,
              cancelled_at := some db.now, cancellation_reason := some reason })
            (fun _ => rfl)]
          rcases hz : findRide db rid with _ | z
          · rfl
          · have hzid : z.id = rid := by
              have := List.find?_some (by simpa [findRide] using hz)
              simpa using this
            rw [Option.map_some', Option.map_some', if_pos hzid]
  · intro db o r0 hpend hd2 hnp2 hfr0
    rw [expire_snd db o hpend] at hd2
    have hoff := expire_post_offers db o hpend
    have hnp : (rideOffers (dispatch_next_offer (pushEvent (updateOffer db o.id
        (fun x => { x with status := OStatus.expired, responded_at := some db.now }))
        (Event.driverGroup o.driver "ride_expired" o.ride)) o.ride).1 o.ride).any
        (fun x => x.status == OStatus.pending) = false := by
      rw [rideOffers_offers_eq hoff o.ride] at hnp2
      rw [List.any_eq_false]
      intro x hx
      have := List.filter_eq_nil_iff.mp hnp2 x hx
      simpa using this
    have hrides := expire_rides_no_drivers db o hpend hd2 hnp
    rw [findRide_rides_eq hrides o.ride]
    rw [findRide_updateRide _ o.ride o.ride
      (fun r => { r with status := RStatus.no_drivers }) (fun _ => rfl)]
    rw [show findRide (dispatch_next_offer (pushEvent (updateOffer db o.id
        (fun x => { x with status := OStatus.expired, responded_at := some db.now }))
        (Event.driverGroup o.driver "ride_expired" o.ride)) o.ride).1 o.ride =
        findRide db o.ride from findRide_rides_eq (by rw [dispatch_rides]; rfl) o.ride]
    rw [hfr0, Option.map_some']
    have hr0id : r0.id = o.ride := by
      have := List.find?_some (by simpa [findRide] using hfr0)
      simpa using this
    rw [if_pos hr0id]

/-- C1 witness: the amended theorem applied to `dbND` (cancelling a
`no_drivers` ride succeeds, producing `cancelled_user`) and to `dbCU`
(expiring the in-flight offer of the already-cancelled ride 5 overwrites
its status with `no_drivers`). -/
theorem claim_C1_witness :
    (match cancel_ride_by_passenger dbND 2 5 "x" with
     | .ok q => (findRide q.1 5).map (·.status)
     | .error _ => none) = some RStatus.cancelled_user ∧
    findRide (expire_offer_and_dispatch dbCU offerCU).1 5 =
      some { rideCU with status := RStatus.no_drivers } := by
  constructor
  · obtain ⟨hiff, himp⟩ := claim_C1_amended.1 dbND 2 5 "x" rideND (by decide)
    obtain ⟨res, hok, hmap⟩ := himp (by decide)
    rw [hok]
    show (findRide res.1 5).map (fun x => x.status) = _
    rw [hmap]
    decide
  · exact claim_C1_amended.2 dbCU offerCU rideCU (by decide) (by decide)
      (by decide) (by decide)

lemma rideCandidates_profiles_eq {db db' : DB} (h : db'.profiles = db.profiles)
    (pk : ℚ × ℚ) (rad : Int) :
    rideCandidates db' pk rad = rideCandidates db pk rad := by
  unfold rideCandidates
  rw [h]

lemma build_offers_empty (db0 db : DB) (ride : RRow) (pk : ℚ × ℚ) (rad : Int)
    (hpk : ride.pickup = pk) (hrad : ride.broadcast_radius = rad)
    (hp : db.profiles = db0.profiles)
    (h : rideCandidates db0 pk rad = []) :
    (build_offers_for_ride db ride).2 = [] ∧
    (build_offers_for_ride db ride).1.rides = db.rides ∧
    (build_offers_for_ride db ride).1.events = db.events ∧
    (build_offers_for_ride db ride).1.offers =
      db.offers.filter (fun o => o.ride ≠ ride.id) := by
  have h' : rideCandidates db ride.pickup ride.broadcast_radius = [] := by
    rw [rideCandidates_profiles_eq hp, hpk, hrad]
    exact h
  unfold build_offers_for_ride
  rw [h']
  refine ⟨?_, rfl, rfl, ?_⟩ <;> simp [sortByLe]

/-- C2 amended: when the candidate list is empty, `create_ride_request`
creates the ride, creates no offers and pushes `no_drivers_available` to
the passenger, but the ride remains `pending` — it is never transitioned
to `no_drivers`. -/
theorem claim_C2_amended (db : DB) (passenger : UserId) (plat plon : ℚ)
    (pa da : String) (n radius : Int)
    (hactive : check_active_ride db passenger = none)
    (hfresh : ∀ r ∈ db.rides, ¬ r.id = db.nextRideId)
    (hcands : rideCandidates db (plat, plon) radius = []) :
    ∃ db', create_ride_request db passenger plat plon pa da n radius =
        .ok (db', db.nextRideId, 0) ∧
      (findRide db' db.nextRideId).map (fun r => (r.status, r.passenger, r.driver)) =
        some (RStatus.pending, passenger, none) ∧
      rideOffers db' db.nextRideId = [] ∧
      db'.events = db.events ++
        [Event.userGroup passenger "no_drivers_available" db.nextRideId] := by
  obtain ⟨R, hR⟩ : ∃ R : RRow, R =
      { id := db.nextRideId, passenger := passenger, driver := none,
        pickup := (plat, plon), pickup_address := pa, dropoff_address := da,
        number_of_passengers := n, broadcast_radius := radius,
        status := RStatus.pending, requested_at := db.now, accepted_at := none,
        completed_at := none, cancelled_at := none, cancellation_reason := none } :=
    ⟨_, rfl⟩
  simp only [create_ride_request, hactive]
  rw [← hR]
  have hbo := build_offers_empty db
    { db with
      rides := db.rides ++ [R], nextRideId := db.nextRideId + 1 }
    R (plat, plon) radius (by rw [hR]) (by rw [hR]) rfl hcands
  rw [hbo.1]
  rw [show ([] : List ORow).isEmpty = true from rfl, if_pos rfl]
  refine ⟨_, rfl, ?_, ?_, ?_⟩
  · rw [findRide_pushEvent, findRide_rides_eq hbo.2.1 _]
    show ((db.rides ++ [R]).find? (fun r => r.id = db.nextRideId)).map
      (fun r => (r.status, r.passenger, r.driver)) =
      some (RStatus.pending, passenger, none)
    rw [List.find?_append]
    rw [List.find?_eq_none.mpr (fun x hx => by simpa using hfresh x hx)]
    rw [Option.none_or]
    rw [List.find?_cons_of_pos _ (by rw [hR]; simp)]
    rw [Option.map_some', hR]
  · simp only [rideOffers, offers_pushEvent]
    rw [hbo.2.2.2, List.filter_filter]
    apply List.filter_eq_nil_iff.mpr
    intro x hx
    simp [hR]
  · rw [events_pushEvent, hbo.2.2.1]

/-- C2 witness: the amended theorem applied at `dbEmpty` (no drivers,
radius 0): the created ride stays `pending`, no offers exist, and the
passenger got `no_drivers_available`. -/
theorem claim_C2_witness :
    (match create_ride_request dbEmpty 1 (5/2) (3/2) "a" "b" 1 0 with
     | .ok q => ((findRide q.1 dbEmpty.nextRideId).map
         (fun r => (r.status, r.passenger, r.driver)),
         rideOffers q.1 dbEmpty.nextRideId, q.1.events)
     | .error _ => (none, [], [])) =
      (some (RStatus.pending, 1, none), ([] : List ORow),
       dbEmpty.events ++ [Event.userGroup 1 "no_drivers_available" dbEmpty.nextRideId]) := by
  obtain ⟨db', hok, hfind, hoffers, hev⟩ := claim_C2_amended dbEmpty 1 (5/2) (3/2)
    "a" "b" 1 0 rfl (by decide) rfl
  rw [hok]
  show ((findRide db' dbEmpty.nextRideId).map
      (fun r => (r.status, r.passenger, r.driver)),
      rideOffers db' dbEmpty.nextRideId, db'.events) = _
  rw [hfind, hoffers, hev]

/-- C3 amended: `accept_ride` fails with `RIDE_NOT_FOUND` without a
profile, `DRIVER_NOT_AVAILABLE` unless the profile is `available`, and
`RIDE_NOT_AVAILABLE` unless the ride is pending; the offer guard is
scoped to THIS driver's offers: with no offer row for this driver the
guard is bypassed even if other drivers hold offers; with a pending offer
the ride is accepted, the driver set busy, the offer accepted with
`responded_at`, every other pending offer of the ride expired with
`responded_at`, and `ride_accepted` pushed to the passenger; with offers
but none pending it fails with `OFFER_EXPIRED` when an expired one
exists, else `OFFER_NOT_FOUND`. -/
theorem claim_C3_amended :
    (∀ (db : DB) (driver : UserId) (rid : RideId),
      findProfile db driver = none →
      accept_ride db driver rid = .error .rideNotFound) ∧
    (∀ (db : DB) (driver : UserId) (rid : RideId) (prof : PRow),
      findProfile db driver = some prof → prof.status ≠ DStatus.available →
      accept_ride db driver rid = .error .driverNotAvailable) ∧
    (∀ (db : DB) (driver : UserId) (rid : RideId) (prof : PRow),
      findProfile db driver = some prof → prof.status = DStatus.available →
      db.rides.find? (fun r => r.id == rid && r.status == RStatus.pending) = none →
      accept_ride db driver rid = .error .rideNotAvailable) ∧
    (∀ (db : DB) (driver : UserId) (rid : RideId) (prof : PRow) (ride : RRow),
      findProfile db driver = some prof → prof.status = DStatus.available →
      db.rides.find? (fun r => r.id == rid && r.status == RStatus.pending) = some ride →
      (rideOffers db rid).filter (fun o => o.driver == driver) = [] →
      ∃ db', accept_ride db driver rid = .ok db' ∧
        findRide db' rid = (findRide db rid).map (fun r => { r with
          driver := some driver, status := RStatus.accepted, accepted_at := some db.now }) ∧
        findProfile db' driver = (findProfile db driver).map
          (fun q => { q with status := DStatus.busy }) ∧
        db'.events = db.events ++ [Event.userGroup ride.passenger "ride_accepted" rid] ∧
        db'.offers = db.offers) ∧
    (∀ (db : DB) (driver : UserId) (rid : RideId) (prof : PRow) (ride : RRow) (off : ORow),
      findProfile db driver = some prof → prof.status = DStatus.available →
      db.rides.find? (fun r => r.id == rid && r.status == RStatus.pending) = some ride →
      ¬ ((rideOffers db rid).filter (fun o => o.driver == driver)).isEmpty = true →
      firstByOrder (((rideOffers db rid).filter (fun o => o.driver == driver)).filter
        (fun o => o.status == OStatus.pending)) = some off →
      ∃ db', accept_ride db driver rid = .ok db' ∧
        findRide db' rid = (findRide db rid).map (fun r => { r with
          driver := some driver, status := RStatus.accepted, accepted_at := some db.now }) ∧
        findProfile db' driver = (findProfile db driver).map
          (fun q => { q with status := DStatus.busy }) ∧
        db'.events = db.events ++ [Event.userGroup ride.passenger "ride_accepted" rid] ∧
        db'.offers = db.offers.map (fun x =>
          if x.id = off.id then
            { x with status := OStatus.accepted, responded_at := some db.now }
          else if x.ride = rid ∧ x.status = OStatus.pending then
            { x with status := OStatus.expired, responded_at := some db.now }
          else x)) ∧
    (∀ (db : DB) (driver : UserId) (rid : RideId) (prof : PRow) (ride : RRow),
      findProfile db driver = some prof → prof.status = DStatus.available →
      db.rides.find? (fun r => r.id == rid && r.status == RStatus.pending) = some ride →
      ¬ ((rideOffers db rid).filter (fun o => o.driver == driver)).isEmpty = true →
      firstByOrder (((rideOffers db rid).filter (fun o => o.driver == driver)).filter
        (fun o => o.status == OStatus.pending)) = none →
      ((((rideOffers db rid).filter (fun o => o.driver == driver)).filter
        (fun o => o.status == OStatus.expired)).isEmpty = true →
        accept_ride db driver rid = .error .offerNotFound) ∧
      (¬ (((rideOffers db rid).filter (fun o => o.driver == driver)).filter
        (fun o => o.status == OStatus.expired)).isEmpty = true →
        accept_ride db driver rid = .error .offerExpired)) ∧
    (∀ (db : DB) (driver : UserId) (rid : RideId) (db' : DB),
      accept_ride db driver rid = .ok db' →
      (∃ prof, findProfile db driver = some prof ∧ prof.status = DStatus.available) ∧
      (∃ ride, db.rides.find? (fun r => r.id == rid && r.status == RStatus.pending) =
        some ride) ∧
      ((rideOffers db rid).filter (fun o => o.driver == driver) = [] ∨
        ∃ off, firstByOrder (((rideOffers db rid).filter (fun o => o.driver == driver)).filter
          (fun o => o.status == OStatus.pending)) = some off ∧
          off.driver = driver ∧ off.status = OStatus.pending)) := by
  refine ⟨?_, ?_, ?_, ?_, ?_, ?_, ?_⟩
  · intro db driver rid hnone
    unfold accept_ride
    rw [hnone]
  · intro db driver rid prof hp hav
    unfold accept_ride
    rw [hp]
    exact if_pos hav
  · intro db driver rid prof hp hav hnone
    simp only [accept_ride, hp, if_neg (show ¬ prof.status ≠ DStatus.available by simp [hav]),
      hnone]
  · intro db driver rid prof ride hp hav hride hqs
    simp only [accept_ride, hp, if_neg (show ¬ prof.status ≠ DStatus.available by simp [hav]),
      hride, hqs]
    rw [if_pos (show ([] : List ORow).isEmpty = true from rfl)]
    refine ⟨_, rfl, ?_, ?_, rfl, rfl⟩
    · show findRide (updateRide db rid (fun r => { r with
        driver := some driver, status := RStatus.accepted, accepted_at := some db.now })) rid = _
      rw [findRide_updateRide db rid rid (fun r => { r with
        driver := some driver, status := RStatus.accepted, accepted_at := some db.now })
        (fun _ => rfl)]
      rcases hz : findRide db rid with _ | z
      · rfl
      · have hzid : z.id = rid := by
          have := List.find?_some (by simpa [findRide] using hz)
          simpa using this
        rw [Option.map_some', Option.map_some', if_pos hzid]
    · show findProfile (updateProfile db driver
        (fun q => { q with status := DStatus.busy })) driver = _
      rw [findProfile_updateProfile db driver driver
        (fun q => { q with status := DStatus.busy }) (fun _ => rfl), hp]
      have hpu : prof.user = driver := by
        have := List.find?_some (by simpa [findProfile] using hp)
        simpa using this
      rw [Option.map_some', Option.map_some', if_pos hpu]
  · intro db driver rid prof ride off hp hav hride hqs hfirst
    simp only [accept_ride, hp, if_neg (show ¬ prof.status ≠ DStatus.available by simp [hav]),
      hride, if_neg hqs, hfirst]
    refine ⟨_, rfl, ?_, ?_, rfl, ?_⟩
    · show findRide (updateRide db rid (fun r => { r with
        driver := some driver, status := RStatus.accepted, accepted_at := some db.now })) rid = _
      rw [findRide_updateRide db rid rid (fun r => { r with
        driver := some driver, status := RStatus.accepted, accepted_at := some db.now })
        (fun _ => rfl)]
      rcases hz : findRide db rid with _ | z
      · rfl
      · have hzid : z.id = rid := by
          have := List.find?_some (by simpa [findRide] using hz)
          simpa using this
        rw [Option.map_some', Option.map_some', if_pos hzid]
    · show findProfile (updateProfile db driver
        (fun q => { q with status := DStatus.busy })) driver = _
      rw [findProfile_updateProfile db driver driver
        (fun q => { q with status := DStatus.busy }) (fun _ => rfl), hp]
      have hpu : prof.user = driver := by
        have := List.find?_some (by simpa [findProfile] using hp)
        simpa using this
      rw [Option.map_some', Option.map_some', if_pos hpu]
    · show (db.offers.map (fun o => if o.id = off.id then
          { o with status := OStatus.accepted, responded_at := some db.now } else o)).map
          (fun x => if x.ride == rid && x.id != off.id && x.status == OStatus.pending then
            { x with status := OStatus.expired, responded_at := some db.now } else x) = _
      rw [List.map_map]
      apply List.map_congr_left
      intro x hx
      simp only [Function.comp_apply]
      by_cases hxid : x.id = off.id
      · simp [hxid]
      · by_cases hc : x.ride = rid ∧ x.status = OStatus.pending
        · simp [hxid, hc.1, hc.2]
        · have hcb : ¬ (x.ride == rid && x.id != off.id && x.status == OStatus.pending)
              = true := by
            simp only [Bool.and_eq_true, beq_iff_eq, bne_iff_ne, ne_eq]
            intro hk
            exact hc ⟨hk.1.1, hk.2⟩
          simp [hxid, hcb, hc]
  · intro db driver rid prof ride hp hav hride hqs hfirst
    constructor
    · intro hexp
      simp only [accept_ride, hp, if_neg (show ¬ prof.status ≠ DStatus.available by
        simp [hav]), hride, if_neg hqs, hfirst, if_pos hexp]
    · intro hexp
      simp only [accept_ride, hp, if_neg (show ¬ prof.status ≠ DStatus.available by
        simp [hav]), hride, if_neg hqs, hfirst, if_neg hexp]
  · intro db driver rid db' hok
    unfold accept_ride at hok
    split at hok
    · exact Except.noConfusion hok
    rename_i prof hp
    split at hok
    · exact Except.noConfusion hok
    rename_i hav
    split at hok
    · exact Except.noConfusion hok
    rename_i ride hride
    refine ⟨⟨prof, hp, by simpa using hav⟩, ⟨ride, hride⟩, ?_⟩
    simp only [] at hok
    split at hok
    · rename_i hqs
      exact Or.inl (by simpa using hqs)
    rename_i hqs
    split at hok
    · rename_i off hfirst
      refine Or.inr ⟨off, hfirst, ?_, ?_⟩
      · have hmem := firstByOrder_mem hfirst
        have h1 := (List.mem_filter.mp hmem).1
        have := (List.mem_filter.mp h1).2
        simpa using this
      · have hmem := firstByOrder_mem hfirst
        have := (List.mem_filter.mp hmem).2
        simpa using this
    · split at hok <;> exact Except.noConfusion hok

/-- C3 witness: in `dbAcc`, available driver 3 holds pending offer 20 on
pending ride 7; `accept_ride` succeeds with the stated ride, profile,
event and offer effects. -/
theorem claim_C3_witness :
    (match accept_ride dbAcc 3 7 with
      | .ok db' => (findRide db' 7, findProfile db' 3, db'.events, db'.offers)
      | .error _ => (none, none, [], [])) =
      (some { ridePend with
        driver := some 3
        status := RStatus.accepted
        accepted_at := some 8 },
       some ⟨3, DStatus.busy, some (0, 0)⟩,
       [Event.userGroup 1 "ride_accepted" 7],
       [{ offerD3 with status := OStatus.accepted, responded_at := some 8 }]) := by
  obtain ⟨db', hok, hride, hprof, hev, hoff⟩ :=
    claim_C3_amended.2.2.2.2.1 dbAcc 3 7 ⟨3, DStatus.available, some (0, 0)⟩ ridePend
      offerD3 (by decide) (by decide) (by decide) (by decide) (by decide)
  rw [hok]
  show (findRide db' 7, findProfile db' 3, db'.events, db'.offers) = _
  rw [hride, hprof, hev, hoff]
  decide

lemma find?_user_nodup (l : List PRow) (p : PRow)
    (hn : (l.map (fun x => x.user)).Nodup) (hp : p ∈ l) :
    l.find? (fun q => q.user = p.user) = some p := by
  induction l with
  | nil => cases hp
  | cons q l ih =>
      rw [List.map_cons, List.nodup_cons] at hn
      rcases List.mem_cons.mp hp with rfl | hp2
      · rw [List.find?_cons_of_pos]
        simp
      · rw [List.find?_cons_of_neg]
        · exact ih hn.2 hp2
        · have hne : ¬ q.user = p.user := by
            intro h
            exact hn.1 (h ▸ List.mem_map_of_mem (fun x => x.user) hp2)
          simpa using hne

lemma findProfile_nodup (db : DB) (p : PRow)
    (hn : (db.profiles.map (fun x => x.user)).Nodup) (hp : p ∈ db.profiles) :
    findProfile db p.user = some p :=
  find?_user_nodup db.profiles p hn hp

lemma mem_rideCandidates (db : DB) (pk : ℚ × ℚ) (rad : Int) (a : PRow × ℝ) :
    a ∈ rideCandidates db pk rad ↔
      a.1 ∈ db.profiles ∧ a.1.status = DStatus.available ∧
      ∃ l, a.1.loc = some l ∧
        a.2 = calculate_distance (pk.1 : ℝ) (pk.2 : ℝ) (l.1 : ℝ) (l.2 : ℝ) ∧
        a.2 ≤ (rad : ℝ) := by
  unfold rideCandidates
  rw [List.mem_filterMap]
  constructor
  · rintro ⟨p, hpmem, hg⟩
    have hf := List.mem_filter.mp hpmem
    have hstat : p.status = DStatus.available := by
      have := hf.2
      simp only [Bool.and_eq_true, beq_iff_eq] at this
      exact this.1
    rcases hl : p.loc with _ | l
    · rw [hl] at hg
      exact absurd hg (by simp)
    · rw [hl] at hg
      simp only at hg
      by_cases hd : calculate_distance (pk.1 : ℝ) (pk.2 : ℝ) (l.1 : ℝ) (l.2 : ℝ) ≤ (rad : ℝ)
      · rw [if_pos hd] at hg
        cases Option.some_inj.mp hg
        exact ⟨hf.1, hstat, l, hl, rfl, hd⟩
      · rw [if_neg hd] at hg
        exact absurd hg (by simp)
  · rintro ⟨hpmem, hstat, l, hl, heq, hle⟩
    refine ⟨a.1, List.mem_filter.mpr ⟨hpmem, by simp [hstat, hl]⟩, ?_⟩
    simp only [hl]
    rw [if_pos (by rw [← heq]; exact hle)]
    rw [show calculate_distance (pk.1 : ℝ) (pk.2 : ℝ) (l.1 : ℝ) (l.2 : ℝ) = a.2 from heq.symm]

lemma distOfDriver_eq (db : DB) (pk : ℚ × ℚ) (rad : Int) (a : PRow × ℝ)
    (hn : (db.profiles.map (fun x => x.user)).Nodup)
    (ha : a ∈ rideCandidates db pk rad) :
    distOfDriver db pk a.1.user = a.2 := by
  obtain ⟨hmem, hstat, l, hl, heq, hle⟩ := (mem_rideCandidates db pk rad a).mp ha
  simp only [distOfDriver, findProfile_nodup db a.1 hn hmem, hl]
  exact heq.symm

/-- C7: `build_offers_for_ride` deletes the prior offers of the ride and
creates pending offers with `sent_at = NULL` and `responded_at = NULL` for
exactly the available drivers with a stored location whose haversine
distance from the pickup is at most `broadcast_radius` (inclusive bound),
assigning `order = 0..N-1` ascending by distance (assuming one profile row
per user). -/
theorem claim_C7_build_offers (db : DB) (ride : RRow)
    (hn : (db.profiles.map (fun x => x.user)).Nodup) :
    (build_offers_for_ride db ride).1.offers =
      db.offers.filter (fun o => o.ride ≠ ride.id) ++ (build_offers_for_ride db ride).2 ∧
    (build_offers_for_ride db ride).2.map (fun o => o.order) =
      List.range (build_offers_for_ride db ride).2.length ∧
    (∀ o ∈ (build_offers_for_ride db ride).2,
      o.ride = ride.id ∧ o.status = OStatus.pending ∧ o.sent_at = none ∧
        o.responded_at = none) ∧
    (∀ u : UserId, (∃ o ∈ (build_offers_for_ride db ride).2, o.driver = u) ↔
      ∃ p ∈ db.profiles, p.user = u ∧ p.status = DStatus.available ∧
        ∃ l, p.loc = some l ∧
          calculate_distance (ride.pickup.1 : ℝ) (ride.pickup.2 : ℝ) (l.1 : ℝ) (l.2 : ℝ) ≤
            (ride.broadcast_radius : ℝ)) ∧
    (build_offers_for_ride db ride).2.Pairwise (fun o1 o2 =>
      distOfDriver db ride.pickup o1.driver ≤ distOfDriver db ride.pickup o2.driver) := by
  have hres : (build_offers_for_ride db ride).2 =
      (sortByLe candLe (rideCandidates db ride.pickup ride.broadcast_radius)).enum.map
        (fun ic =>
          { id := db.nextOfferId + ic.1, ride := ride.id, driver := ic.2.1.user,
            order := ic.1, status := OStatus.pending,
            sent_at := none, responded_at := none : ORow }) := rfl
  refine ⟨rfl, ?_, ?_, ?_, ?_⟩
  · rw [hres, List.map_map, List.length_map, List.enum_length]
    exact List.enum_map_fst _
  · intro o ho
    rw [hres] at ho
    obtain ⟨ic, hic, rfl⟩ := List.mem_map.mp ho
    exact ⟨rfl, rfl, rfl, rfl⟩
  · intro u
    constructor
    · rintro ⟨o, ho, rfl⟩
      rw [hres] at ho
      obtain ⟨ic, hic, rfl⟩ := List.mem_map.mp ho
      have hic2 : ic.2 ∈ sortByLe candLe
          (rideCandidates db ride.pickup ride.broadcast_radius) := by
        have := List.mem_map_of_mem Prod.snd hic
        rwa [List.enum_map_snd] at this
      have hcand := (mem_sortByLe candLe ic.2 _).mp hic2
      obtain ⟨hmem, hstat, l, hl, heq, hle⟩ :=
        (mem_rideCandidates db ride.pickup ride.broadcast_radius ic.2).mp hcand
      exact ⟨ic.2.1, hmem, rfl, hstat, l, hl, by rw [← heq]; exact hle⟩
    · rintro ⟨p, hp, rfl, hstat, l, hl, hle⟩
      have hcand : (p, calculate_distance (ride.pickup.1 : ℝ) (ride.pickup.2 : ℝ)
          (l.1 : ℝ) (l.2 : ℝ)) ∈ rideCandidates db ride.pickup ride.broadcast_radius :=
        (mem_rideCandidates db ride.pickup ride.broadcast_radius _).mpr
          ⟨hp, hstat, l, hl, rfl, hle⟩
      have hsort := (mem_sortByLe candLe _
        (rideCandidates db ride.pickup ride.broadcast_radius)).mpr hcand
      have hmm : (p, calculate_distance (ride.pickup.1 : ℝ) (ride.pickup.2 : ℝ)
          (l.1 : ℝ) (l.2 : ℝ)) ∈ (sortByLe candLe
          (rideCandidates db ride.pickup ride.broadcast_radius)).enum.map Prod.snd := by
        rw [List.enum_map_snd]
        exact hsort
      obtain ⟨ic, hic, hic2⟩ := List.mem_map.mp hmm
      refine ⟨({ id := db.nextOfferId + ic.1, ride := ride.id, driver := ic.2.1.user, order := ic.1, status := OStatus.pending, sent_at := none, responded_at := none : ORow }), ?_, ?_⟩
      · rw [hres]
        exact List.mem_map_of_mem _ hic
      · show ic.2.1.user = p.user
        rw [hic2]
  · rw [hres, List.pairwise_map]
    have htot : ∀ a b : PRow × ℝ, candLe a b = true ∨ candLe b a = true := by
      intro a b
      rcases le_total a.2 b.2 with h | h
      · left
        simpa [candLe] using h
      · right
        simpa [candLe] using h
    have htrans : ∀ a b c : PRow × ℝ,
        candLe a b = true → candLe b c = true → candLe a c = true := by
      intro a b c hab hbc
      simp only [candLe, decide_eq_true_eq] at hab hbc ⊢
      exact le_trans hab hbc
    have hpw := pairwise_sortByLe candLe htot htrans
      (rideCandidates db ride.pickup ride.broadcast_radius)
    have h2 : ((sortByLe candLe
        (rideCandidates db ride.pickup ride.broadcast_radius)).enum.map
        Prod.snd).Pairwise (fun x y : PRow × ℝ => x.2 ≤ y.2) := by
      rw [List.enum_map_snd]
      exact hpw.imp (fun h => by simpa [candLe] using h)
    have henum := (List.pairwise_map).mp h2
    refine List.Pairwise.imp_of_mem ?_ henum
    intro a b ha hb hab
    have ha2 : a.2 ∈ sortByLe candLe
        (rideCandidates db ride.pickup ride.broadcast_radius) := by
      have := List.mem_map_of_mem Prod.snd ha
      rwa [List.enum_map_snd] at this
    have hb2 : b.2 ∈ sortByLe candLe
        (rideCandidates db ride.pickup ride.broadcast_radius) := by
      have := List.mem_map_of_mem Prod.snd hb
      rwa [List.enum_map_snd] at this
    have haC := (mem_sortByLe candLe a.2 _).mp ha2
    have hbC := (mem_sortByLe candLe b.2 _).mp hb2
    show distOfDriver db ride.pickup a.2.1.user ≤ distOfDriver db ride.pickup b.2.1.user
    rw [distOfDriver_eq db ride.pickup ride.broadcast_radius a.2 hn haC,
      distOfDriver_eq db ride.pickup ride.broadcast_radius b.2 hn hbC]
    exact hab

/-- C7 witness: `dbAcc` has one profile row per user, so the builder
theorem applies to ride 7 there. -/
theorem claim_C7_witness :
    (dbAcc.profiles.map (fun x => x.user)).Nodup ∧
    ((build_offers_for_ride dbAcc ridePend).1.offers =
      dbAcc.offers.filter (fun o => o.ride ≠ ridePend.id) ++
        (build_offers_for_ride dbAcc ridePend).2 ∧
    (build_offers_for_ride dbAcc ridePend).2.map (fun o => o.order) =
      List.range (build_offers_for_ride dbAcc ridePend).2.length ∧
    (∀ o ∈ (build_offers_for_ride dbAcc ridePend).2,
      o.ride = ridePend.id ∧ o.status = OStatus.pending ∧ o.sent_at = none ∧
        o.responded_at = none) ∧
    (∀ u : UserId, (∃ o ∈ (build_offers_for_ride dbAcc ridePend).2, o.driver = u) ↔
      ∃ p ∈ dbAcc.profiles, p.user = u ∧ p.status = DStatus.available ∧
        ∃ l, p.loc = some l ∧
          calculate_distance (ridePend.pickup.1 : ℝ) (ridePend.pickup.2 : ℝ)
            (l.1 : ℝ) (l.2 : ℝ) ≤ (ridePend.broadcast_radius : ℝ)) ∧
    (build_offers_for_ride dbAcc ridePend).2.Pairwise (fun o1 o2 =>
      distOfDriver dbAcc ridePend.pickup o1.driver ≤
        distOfDriver dbAcc ridePend.pickup o2.driver)) :=
  ⟨by decide, claim_C7_build_offers dbAcc ridePend (by decide)⟩

/-- C6 amended: the cover always contains the geohash of the center point
itself (the `lat_step = lon_step = 0` sample of the 7×7 grid). -/
theorem claim_C6_amended (lat lon radius : ℝ) (precision : Nat) :
    encode_geohashR lat lon precision ∈
      get_covering_geohashesR lat lon radius precision := by
  have h0 : (0 : ℤ) ∈ sampleSteps := by decide
  have hx : encode_geohashR lat lon precision =
      encode_geohashR (lat + (((0 : ℤ) : ℝ) * (radius / 111000) / 3))
        (lon + (((0 : ℤ) : ℝ) * (radius / (111000 * |cos_deg lat|)) / 3)) precision := by
    norm_num
  rw [hx]
  simp only [get_covering_geohashesR]
  rw [List.mem_dedup, List.mem_flatten]
  exact ⟨_, List.mem_map_of_mem _ h0, List.mem_map_of_mem _ h0⟩

set_option maxRecDepth 10000 in
unseal Rat.add Rat.mul Rat.inv Rat.sub Rat.ofScientific in
/-- C6 counterexample: the point `(0.15, 0)` lies within 100 000 m of the
center `(0, 0)` (about 16.7 km away), yet its precision-6 geohash is not
in `cover(0, 0, 100000)`: the 7×7 sampling grid has spacing over 9 km and
skips the tile `s000b5`. -/
theorem claim_C6_counterexample :
    calculate_distance 0 0 (15 / 100) 0 ≤ (100000 : ℝ) ∧
    encode_geohashR ((15 : ℝ) / 100) 0 6 ∉ get_covering_geohashesR 0 0 100000 6 := by
  constructor
  · show 2 * Real.arcsin (Real.sqrt
        (Real.sin (((15 : ℝ) / 100 * Real.pi / 180 - 0 * Real.pi / 180) / 2) ^ 2 +
          Real.cos ((0 : ℝ) * Real.pi / 180) * Real.cos ((15 : ℝ) / 100 * Real.pi / 180) *
            Real.sin (((0 : ℝ) * Real.pi / 180 - 0 * Real.pi / 180) / 2) ^ 2)) * 6371000 ≤
      100000
    rw [show (((15 : ℝ) / 100 * Real.pi / 180 - 0 * Real.pi / 180) / 2) = Real.pi / 2400 by
      ring]
    rw [show (((0 : ℝ) * Real.pi / 180 - 0 * Real.pi / 180) / 2) = 0 by ring]
    rw [Real.sin_zero]
    rw [show Real.sin (Real.pi / 2400) ^ 2 + Real.cos ((0 : ℝ) * Real.pi / 180) *
        Real.cos ((15 : ℝ) / 100 * Real.pi / 180) * 0 ^ 2 =
        Real.sin (Real.pi / 2400) ^ 2 by ring]
    have hs0 : 0 ≤ Real.sin (Real.pi / 2400) :=
      Real.sin_nonneg_of_nonneg_of_le_pi (by positivity) (by nlinarith [Real.pi_pos])
    rw [Real.sqrt_sq hs0]
    rw [Real.arcsin_sin (by nlinarith [Real.pi_pos]) (by nlinarith [Real.pi_pos])]
    nlinarith [Real.pi_le_four, Real.pi_pos]
  · intro hmem
    have hc1 : cos_deg ((0 : ℚ) : ℝ) = 1 := by
      unfold cos_deg
      rw [show (((0 : ℚ) : ℝ)) * Real.pi / 180 = 0 by push_cast; ring]
      exact Real.cos_zero
    have hcast := get_covering_geohashesR_cast 0 0 100000 (100000 / 111000) 6 (by
      rw [hc1]
      push_cast
      norm_num)
    rw [show ((0 : ℚ) : ℝ) = (0 : ℝ) by norm_num,
        show ((100000 : ℚ) : ℝ) = (100000 : ℝ) by norm_num] at hcast
    rw [hcast] at hmem
    have henc : encode_geohashR ((15 : ℝ) / 100) 0 6 = encode_geohash (15 / 100) 0 6 := by
      rw [show ((15 : ℝ) / 100) = (((15 / 100 : ℚ)) : ℝ) by push_cast; ring,
          show (0 : ℝ) = ((0 : ℚ) : ℝ) by norm_num]
      exact encode_geohashR_cast _ _ _
    rw [henc] at hmem
    exact absurd hmem (by decide)
